import Mathlib

/-!
Verification development for the spotgen playlist generator
(`src/spotify.js`).  The JavaScript source is shallowly embedded:

* JSON values (remote responses) become the mutual inductive `JVal`;
  JavaScript `undefined` and `null` are distinct constructors, and
  truthiness tests mirror the JavaScript rules for the represented
  values.  Property access on `undefined`/`null` throws, which is
  modelled by `Except String`; both thrown exceptions and promise
  rejections surface as `Except.error` (the sequential promise chain
  of the source makes the two indistinguishable to the pipeline).
* Strings are Lean `String`s, but every operation is implemented on
  the underlying character list so that all definitions evaluate
  inside the kernel.  Case conversion is ASCII (the directives and
  inputs of interest are ASCII).
* The HTTP gateway is a parameter `Env : String → Except String JVal`
  mapping a URL to the parsed JSON body (`error` = transport/HTTP/
  parse/API failure).  The Last.fm collaborator (not part of this
  file's source) is likewise an opaque parameter.
* Object identity (`===`) is approximated by structural equality on
  the value model; for `Queue`-valued items it is modelled as `false`
  (two distinct queue objects are never reference-equal, and the
  program never aliases a queue inside another queue).
-/

namespace Spotify

/-! ## JavaScript-ish values -/

mutual
/-- A parsed-JSON / JavaScript value as used by the source:
`undefined`, `null`, `NaN`, booleans, (integer) numbers, strings,
arrays and plain objects. -/
inductive JVal where
  | undefined
  | jnull
  | nan
  | bool (b : Bool)
  | num (n : Int)
  | str (s : String)
  | arr (xs : JArr)
  | obj (fs : JObj)
deriving DecidableEq

/-- Array payload of a `JVal`. -/
inductive JArr where
  | nil
  | cons (v : JVal) (rest : JArr)
deriving DecidableEq

/-- Object payload of a `JVal`: an ordered field list. -/
inductive JObj where
  | nil
  | cons (k : String) (v : JVal) (rest : JObj)
deriving DecidableEq
end

/-- Build a `JVal` array from a list. -/
def jarrOf : List JVal → JArr
  | [] => .nil
  | v :: rest => .cons v (jarrOf rest)

/-- Build a `JVal` object from a field list. -/
def jobjOf : List (String × JVal) → JObj
  | [] => .nil
  | (k, v) :: rest => .cons k v (jobjOf rest)

/-- Array as a Lean list. -/
def JArr.toList : JArr → List JVal
  | .nil => []
  | .cons v rest => v :: rest.toList

/-- JavaScript truthiness of the represented value. -/
def JVal.truthy : JVal → Bool
  | .undefined => false
  | .jnull => false
  | .nan => false
  | .bool b => b
  | .num n => n != 0
  | .str s => s != ""
  | .arr _ => true
  | .obj _ => true

/-- First field with the given name, JavaScript property lookup. -/
def JObj.lookup : JObj → String → JVal
  | .nil, _ => .undefined
  | .cons k v rest, key => if k = key then v else rest.lookup key

/-- `n`-th element of an array, `undefined` when out of range. -/
def JArr.nth : JArr → Nat → JVal
  | .nil, _ => .undefined
  | .cons v _, 0 => v
  | .cons _ rest, n + 1 => rest.nth n

/-- Length of an array payload. -/
def JArr.size : JArr → Nat
  | .nil => 0
  | .cons _ rest => rest.size + 1

/-- Guarded property read `v.k` (used where the source has already
checked `v` for truthiness, so the access cannot throw): objects look
up the field, arrays expose `length`, strings expose `length`, other
primitives yield `undefined`. -/
def JVal.getD (v : JVal) (k : String) : JVal :=
  match v with
  | .obj fs => fs.lookup k
  | .arr xs => if k = "length" then .num xs.size else .undefined
  | .str s => if k = "length" then .num s.data.length else .undefined
  | _ => .undefined

/-- Unguarded property read `v.k`: throws a `TypeError` on
`undefined`/`null`, otherwise behaves like `JVal.getD`. -/
def JVal.getThrow (v : JVal) (k : String) : Except String JVal :=
  match v with
  | .undefined => .error ("TypeError: cannot read properties of undefined (reading " ++ k ++ ")")
  | .jnull => .error ("TypeError: cannot read properties of null (reading " ++ k ++ ")")
  | _ => .ok (v.getD k)

/-- Guarded index read `v[n]` (receiver known non-`undefined`/`null`). -/
def JVal.idx (v : JVal) (n : Nat) : JVal :=
  match v with
  | .arr xs => xs.nth n
  | _ => .undefined

/-- Unguarded index read `v[n]`: throws on `undefined`/`null`. -/
def JVal.idxThrow (v : JVal) (n : Nat) : Except String JVal :=
  match v with
  | .undefined => .error "TypeError: cannot read properties of undefined (indexing)"
  | .jnull => .error "TypeError: cannot read properties of null (indexing)"
  | _ => .ok (v.idx n)

mutual
/-- JavaScript string coercion of a value (`"" + v`). -/
def JVal.coerceStr : JVal → String
  | .undefined => "undefined"
  | .jnull => "null"
  | .nan => "NaN"
  | .bool b => if b then "true" else "false"
  | .num n => toString n
  | .str s => s
  | .arr xs => xs.joinComma
  | .obj _ => "[object Object]"

/-- `Array.prototype.toString`: elements joined with commas
(`undefined`/`null` elements render empty). -/
def JArr.joinComma : JArr → String
  | .nil => ""
  | .cons .undefined .nil => ""
  | .cons .jnull .nil => ""
  | .cons v .nil => JVal.coerceStr v
  | .cons .undefined rest => "," ++ rest.joinComma
  | .cons .jnull rest => "," ++ rest.joinComma
  | .cons v rest => JVal.coerceStr v ++ "," ++ rest.joinComma
end

/-- Strict equality test against the empty string (`v !== ''` is the
negation); only a string equal to `""` compares equal. -/
def JVal.isEmptyStr : JVal → Bool
  | .str s => s == ""
  | _ => false

/-- `v.toLowerCase()`: defined on strings, a `TypeError` otherwise
(ASCII case folding). -/
def JVal.toLowerMethod : JVal → Except String String
  | .str s => .ok ⟨s.data.map Char.toLower⟩
  | _ => .error "TypeError: toLowerCase is not a function"

/-- The `<` comparison as used by the sort comparators of the source.
Faithful for numbers (and for `undefined`/`NaN`, where JavaScript
comparison is always false); other coercing comparisons do not arise
in the verified fragment and yield `false`. -/
def jsLtB : JVal → JVal → Bool
  | .num a, .num b => a < b
  | _, _ => false

/-- Whether a value is an (integer) number. -/
def JVal.isNum : JVal → Bool
  | .num _ => true
  | _ => false

/-! ## String helpers (kernel-computable, modelled on the JavaScript
string built-ins used by the source) -/

/-- ASCII `String.prototype.toUpperCase`. -/
def jsToUpper (s : String) : String := ⟨s.data.map Char.toUpper⟩

/-- ASCII `String.prototype.toLowerCase`. -/
def jsToLower (s : String) : String := ⟨s.data.map Char.toLower⟩

/-- The whitespace class stripped by `String.prototype.trim`
(restricted to the ASCII whitespace appearing in inputs). -/
def jsWS (c : Char) : Bool := c == ' ' || c == '\t' || c == '\n' || c == '\r'

/-- `String.prototype.trim`. -/
def jsTrim (s : String) : String :=
  ⟨((s.data.dropWhile jsWS).reverse.dropWhile jsWS).reverse⟩

/-- Anchored case-sensitive prefix test (`/^lit/` on an
already-case-folded string). -/
def jsStartsWith (s pre : String) : Bool := pre.data.isPrefixOf s.data

/-- `String.prototype.substring(n)` / dropping a known ASCII prefix. -/
def jsDrop (s : String) (n : Nat) : String := ⟨s.data.drop n⟩

/-- Split a character list at every separator character. -/
def jsSplitCharsL (p : Char → Bool) : List Char → List String
  | [] => [""]
  | c :: rest =>
    match jsSplitCharsL p rest with
    | [] => [""]
    | cur :: done =>
      if p c then "" :: cur :: done else ⟨c :: cur.data⟩ :: done

/-- `str.split(regex)` where the regex matches single separator
characters (the source splits on `/\r|\n|\r\n/`, whose third
alternative is unreachable, and on `'/'`). -/
def jsSplitChars (p : Char → Bool) (s : String) : List String :=
  jsSplitCharsL p s.data

/-- Hex digit for percent-encoding. -/
def hexDigit (n : Nat) : Char :=
  if n < 10 then Char.ofNat (48 + n) else Char.ofNat (55 + n)

/-- UTF-8 bytes of a code point (for `encodeURIComponent`). -/
def utf8Bytes (n : Nat) : List Nat :=
  if n < 0x80 then [n]
  else if n < 0x800 then [0xC0 + n / 64, 0x80 + n % 64]
  else if n < 0x10000 then [0xE0 + n / 4096, 0x80 + (n / 64) % 64, 0x80 + n % 64]
  else [0xF0 + n / 262144, 0x80 + (n / 4096) % 64, 0x80 + (n / 64) % 64, 0x80 + n % 64]

/-- Characters `encodeURIComponent` leaves untouched
(alphanumerics and `-_.!~*'()`, the apostrophe written by code). -/
def uriUnreserved (c : Char) : Bool :=
  c.isAlphanum || c == '-' || c == '_' || c == '.' || c == '!' ||
  c == '~' || c == '*' || c == '(' || c == ')' || c.toNat == 39

/-- Percent-encoding of one character. -/
def pctEncodeChar (c : Char) : List Char :=
  (utf8Bytes c.toNat).flatMap fun b => ['%', hexDigit (b / 16), hexDigit (b % 16)]

/-- `encodeURIComponent`. -/
def encodeURIComponent (s : String) : String :=
  ⟨s.data.flatMap fun c => if uriUnreserved c then [c] else pctEncodeChar c⟩

end Spotify

namespace Spotify

/-! ## The HTTP gateway and the Last.fm collaborator -/

/-- The gateway: a fixed assignment of parsed JSON bodies (or
failures) to URLs.  `spotify.request` resolves with the parsed body
or rejects; the pacing delay has no observable effect on the
sequential pipeline and is not modelled. -/
abbrev Env := String → Except String JVal

/-- The Last.fm collaborator `lastfm.getInfo(artist, title)`
(its implementation lives outside `src/spotify.js`). -/
abbrev Lfm := String → JVal → Except String JVal

/-! ## Track entries (`spotify.Track`) -/

/-- A `spotify.Track`: the trimmed entry string, the simplified and
the full response objects (initially `null`; the constructor may
store its argument in either slot) and the Last.fm response. -/
structure Track where
  entry : String
  responseSimple : JVal
  response : JVal
  lastfmResponse : JVal
deriving DecidableEq

/-- `Track.prototype.isFullResponse`: `response && response.popularity`. -/
def Track.isFullResponse (response : JVal) : Bool :=
  response.truthy && (response.getD "popularity").truthy

/-- The `spotify.Track` constructor: trims the entry and stores the
response argument as the full response iff `isFullResponse` holds,
as the simplified response otherwise. -/
def Track.make (entry : String) (response : JVal) : Track :=
  if Track.isFullResponse response then
    { entry := jsTrim entry, responseSimple := .jnull, response := response,
      lastfmResponse := .jnull }
  else
    { entry := jsTrim entry, responseSimple := response, response := .jnull,
      lastfmResponse := .jnull }

/-- `Track.prototype.isURI`: `/^spotify:track:/i`. -/
def Track.isURI (s : String) : Bool :=
  jsStartsWith (jsToUpper s) "SPOTIFY:TRACK:"

/-- `Track.prototype.isLink`: `/^https?:\/\/open\.spotify\.com\/track\//i`. -/
def Track.isLink (s : String) : Bool :=
  jsStartsWith (jsToUpper s) "HTTP://OPEN.SPOTIFY.COM/TRACK/" ||
  jsStartsWith (jsToUpper s) "HTTPS://OPEN.SPOTIFY.COM/TRACK/"

/-- `Track.prototype.id`: the response id, the simplified-response
id, the URI suffix (after the 14-character `spotify:track:` prefix),
the fifth link segment, or the `-1` sentinel. -/
def Track.idJ (t : Track) : JVal :=
  if t.response.truthy && (t.response.getD "id").truthy then
    t.response.getD "id"
  else if t.responseSimple.truthy && (t.responseSimple.getD "id").truthy then
    t.responseSimple.getD "id"
  else if Track.isURI t.entry then
    .str (jsDrop t.entry 14)
  else if Track.isLink t.entry then
    match (jsSplitChars (· == '/') t.entry).drop 4 with
    | seg :: _ => .str seg
    | [] => .undefined
  else
    .num (-1)

/-- `Track.prototype.uri`: the full response uri, else the simplified
response uri, else the empty string. -/
def Track.uriJ (t : Track) : JVal :=
  if t.response.truthy then t.response.getD "uri"
  else if t.responseSimple.truthy then t.responseSimple.getD "uri"
  else .str ""

/-- `Track.prototype.popularity`: the full response popularity, or
`-1` when there is no full response. -/
def Track.popularity (t : Track) : JVal :=
  if t.response.truthy then t.response.getD "popularity" else .num (-1)

/-- `Track.prototype.lastfm`: `parseInt` of the represented playcount
(numbers pass through, non-numeric playcounts give `NaN`; string
parsing of digit prefixes does not arise in the verified fragment),
or `-1` without a Last.fm response.  The unguarded
`this.lastfmResponse.track.playcount` chain can throw. -/
def Track.lastfmJ (t : Track) : Except String JVal :=
  if t.lastfmResponse.truthy then do
    let tr := t.lastfmResponse.getD "track"
    let pc ← tr.getThrow "playcount"
    .ok (match pc with
         | .num n => .num n
         | _ => .nan)
  else
    .ok (.num (-1))

/-- `Track.prototype.artist`: the trimmed name of the first artist of
the full-or-simplified response, or the empty string; every access is
truthiness-guarded, but `.trim()` on a truthy non-string name throws. -/
def Track.artistM (t : Track) : Except String String :=
  let response := if t.response.truthy then t.response else t.responseSimple
  if response.truthy then
    let artists := response.getD "artists"
    if artists.truthy then
      let a0 := artists.idx 0
      if a0.truthy then
        let nm := a0.getD "name"
        if nm.truthy then
          match nm with
          | .str s => .ok (jsTrim s)
          | _ => .error "TypeError: trim is not a function"
        else .ok ""
      else .ok ""
    else .ok ""
  else .ok ""

/-- `artists.map(artist => artist.name.trim())`: trimmed names, a
`TypeError` when a name is not a string. -/
def JArr.mapNames : JArr → Except String (List String)
  | .nil => .ok []
  | .cons a rest => do
    let nm ← a.getThrow "name"
    match nm with
    | .str s => do
      let others ← JArr.mapNames rest
      .ok (jsTrim s :: others)
    | _ => .error "TypeError: trim is not a function"

/-- `Track.prototype.artists`: the guard inspects
`response = this.response || this.responseSimple`, but the mapping
dereferences `this.response.artists` — an unguarded access that
throws whenever the full response is absent. -/
def Track.artistsM (t : Track) : Except String String :=
  let response := if t.response.truthy then t.response else t.responseSimple
  if response.truthy && (response.getD "artists").truthy then do
    let arts ← t.response.getThrow "artists"
    let names ← (match arts with
      | .arr xs => JArr.mapNames xs
      | _ => .error "TypeError: map is not a function")
    .ok (String.intercalate ", " names)
  else
    .ok ""

/-- `Track.prototype.title`: the name of the full-or-simplified
response, or the empty string. -/
def Track.titleJ (t : Track) : JVal :=
  let response := if t.response.truthy then t.response else t.responseSimple
  if response.truthy then
    let n := response.getD "name"
    if n.truthy then n else .str ""
  else .str ""

/-- `Track.prototype.album`: the full response album name, or the
empty string. -/
def Track.albumJ (t : Track) : JVal :=
  if t.response.truthy &&
     (t.response.getD "album").truthy &&
     ((t.response.getD "album").getD "name").truthy then
    (t.response.getD "album").getD "name"
  else .str ""

/-- `Track.prototype.name`: `Title - Artist` when both are non-empty,
just the title value when the artist is empty, the empty string when
the title is empty; calling `artist()` may throw. -/
def Track.nameM (t : Track) : Except String JVal :=
  let title := Track.titleJ t
  if !title.isEmptyStr then do
    let artist ← Track.artistM t
    if artist != "" then
      .ok (.str (title.coerceStr ++ " - " ++ artist))
    else
      .ok title
  else
    .ok (.str "")

/-- `Track.prototype.toString`: the full name when non-empty, the raw
entry text otherwise. -/
def Track.toStringM (t : Track) : Except String JVal := do
  let name ← Track.nameM t
  if !name.isEmptyStr then .ok name else .ok (.str t.entry)

/-! ## Queue items

After expansion a queue may hold tracks, `undefined` (a fulfilled
but empty search, see `Track.searchForTrack`), album or artist
entries, or nested queues. -/

/-- A `spotify.Album` entry: the trimmed entry string and the
optional search/album responses (absent = `undefined`). -/
structure AlbumE where
  entry : String
  searchResponse : JVal
  albumResponse : JVal
deriving DecidableEq

/-- A `spotify.Artist` entry: the trimmed entry string, the search
response (initially `null`) and the albums listing response. -/
structure ArtistE where
  entry : String
  artistResponse : JVal
  albumsResponse : JVal
deriving DecidableEq

mutual
/-- One slot of a `spotify.Queue`. -/
inductive Item where
  | track (t : Track)
  | album (a : AlbumE)
  | artist (a : ArtistE)
  | queue (q : ItemL)
  | undefI
deriving DecidableEq

/-- The payload of a nested `spotify.Queue`. -/
inductive ItemL where
  | nil
  | cons (i : Item) (rest : ItemL)
deriving DecidableEq
end

/-- Build an `ItemL` from a list. -/
def ItemL.ofList : List Item → ItemL
  | [] => .nil
  | i :: rest => .cons i (ItemL.ofList rest)

/-- `ItemL` as a Lean list. -/
def ItemL.toList : ItemL → List Item
  | .nil => []
  | .cons i rest => i :: rest.toList

end Spotify

namespace Spotify

/-! ## Track expansion -/

/-- The track-search URL built by `Track.prototype.searchForTrack`. -/
def searchTrackUrl (query : String) : String :=
  "https://api.spotify.com/v1/search?type=track&q=" ++ encodeURIComponent query

/-- The track-fetch URL built by `Track.prototype.fetchTrack`. -/
def trackUrl (t : Track) : String :=
  "https://api.spotify.com/v1/tracks/" ++ encodeURIComponent (Track.idJ t).coerceStr

/-- `Track.prototype.fetchTrack`: fetch `/v1/tracks/<id>` and store
the body as the full response (no full-response check on storage). -/
def Track.fetchTrack (env : Env) (t : Track) : Except String Item := do
  let result ← env (trackUrl t)
  .ok (.track { t with response := result })

/-- `Track.prototype.searchForTrack`: search; when the first hit has
a truthy uri, store it as the simplified response and resolve with
the track — otherwise the handler returns nothing and the promise
FULFILS WITH `undefined` (it does not reject). -/
def Track.searchForTrack (env : Env) (t : Track) : Except String Item := do
  let result ← env (searchTrackUrl t.entry)
  let tracks ← result.getThrow "tracks"
  if tracks.truthy then do
    let item0 ← (tracks.getD "items").idxThrow 0
    if item0.truthy then
      if (item0.getD "uri").truthy then
        .ok (.track { t with responseSimple := item0 })
      else
        .ok .undefI
    else
      .ok .undefI
  else
    .ok .undefI

/-- `Track.prototype.dispatch`: resolve immediately on a full
response; fetch by id on a simplified response, a URI entry or a link
entry; search otherwise. -/
def Track.dispatch (env : Env) (t : Track) : Except String Item :=
  if t.response.truthy then .ok (.track t)
  else if t.responseSimple.truthy then Track.fetchTrack env t
  else if Track.isURI t.entry then Track.fetchTrack env t
  else if Track.isLink t.entry then Track.fetchTrack env t
  else Track.searchForTrack env t

/-! ## Album expansion -/

/-- `Album.prototype.isSearchResponse`:
`response && response.albums && response.albums.items[0] && ...id`.
The `items[0]` access is unguarded and can throw. -/
def AlbumE.isSearchResponse (response : JVal) : Except String Bool :=
  if response.truthy then
    let albums := response.getD "albums"
    if albums.truthy then do
      let item0 ← (albums.getD "items").idxThrow 0
      if item0.truthy then
        .ok (item0.getD "id").truthy
      else
        .ok false
    else
      .ok false
  else
    .ok false

/-- `Album.prototype.isAlbumResponse`: `response && response.id`. -/
def AlbumE.isAlbumResponse (response : JVal) : Bool :=
  response.truthy && (response.getD "id").truthy

/-- The `spotify.Album` constructor (can throw through
`isSearchResponse`). -/
def AlbumE.make (entry : String) (response : JVal) : Except String AlbumE := do
  let isSearch ← AlbumE.isSearchResponse response
  if isSearch then
    .ok ⟨jsTrim entry, response, .undefined⟩
  else if AlbumE.isAlbumResponse response then
    .ok ⟨jsTrim entry, .undefined, response⟩
  else
    .ok ⟨jsTrim entry, .undefined, .undefined⟩

/-- `Album.prototype.id`: the album response id, else the first
search-hit id (fully guarded), else `-1`. -/
def AlbumE.idJ (a : AlbumE) : JVal :=
  if a.albumResponse.truthy && (a.albumResponse.getD "id").truthy then
    a.albumResponse.getD "id"
  else
    let s := a.searchResponse
    if s.truthy && (s.getD "albums").truthy &&
       ((s.getD "albums").getD "items").truthy &&
       (((s.getD "albums").getD "items").idx 0).truthy &&
       ((((s.getD "albums").getD "items").idx 0).getD "id").truthy then
      (((s.getD "albums").getD "items").idx 0).getD "id"
    else
      .num (-1)

/-- The album-search URL of `Album.prototype.searchForAlbum`. -/
def searchAlbumUrl (query : String) : String :=
  "https://api.spotify.com/v1/search?type=album&q=" ++ encodeURIComponent query

/-- The album-fetch URL of `Album.prototype.fetchAlbum`. -/
def albumUrl (a : AlbumE) : String :=
  "https://api.spotify.com/v1/albums/" ++ encodeURIComponent (AlbumE.idJ a).coerceStr

/-- `Album.prototype.searchForAlbum`: on a usable search response
store it; every other outcome (gateway failure, unusable response, a
throwing guard) is funnelled through the `COULD NOT FIND` handler
into a rejection. -/
def AlbumE.searchForAlbum (env : Env) (a : AlbumE) : Except String (AlbumE × JVal) :=
  match env (searchAlbumUrl a.entry) with
  | .error _ => .error ("COULD NOT FIND " ++ a.entry)
  | .ok response =>
    match AlbumE.isSearchResponse response with
    | .error _ => .error ("COULD NOT FIND " ++ a.entry)
    | .ok true => .ok ({ a with searchResponse := response }, response)
    | .ok false => .error ("COULD NOT FIND " ++ a.entry)

/-- `Album.prototype.fetchAlbum`: fetch `/v1/albums/<id>`; keep the
body iff it is an album response, reject otherwise. -/
def AlbumE.fetchAlbum (env : Env) (a : AlbumE) : Except String (AlbumE × JVal) := do
  let response ← env (albumUrl a)
  if AlbumE.isAlbumResponse response then
    .ok ({ a with albumResponse := response }, response)
  else
    .error "rejected: not an album response"

end Spotify

namespace Spotify

/-! ## Queue resolution (`spotify.Queue`) -/

/-- `Queue.prototype.resolveAll`: sequential resolution that collects
every fulfilled value in order and silently drops every rejection. -/
def resolveAll (f : Item → Except String Item) : List Item → List Item
  | [] => []
  | x :: xs =>
    match f x with
    | .ok v => v :: resolveAll f xs
    | .error _ => resolveAll f xs

/-! ## Artist expansion -/

/-- `Artist.prototype.isSearchResponse`:
`response && response.artists && response.artists.items[0] && ...id`;
the `items[0]` access is unguarded and can throw. -/
def ArtistE.isSearchResponse (response : JVal) : Except String Bool :=
  if response.truthy then
    let artists := response.getD "artists"
    if artists.truthy then do
      let item0 ← (artists.getD "items").idxThrow 0
      if item0.truthy then
        .ok (item0.getD "id").truthy
      else
        .ok false
    else
      .ok false
  else
    .ok false

/-- The `spotify.Artist` constructor. -/
def ArtistE.make (entry : String) : ArtistE :=
  ⟨jsTrim entry, .jnull, .undefined⟩

/-- `Artist.prototype.id`: the first search-hit id or `-1`; the
`items[0]` access is unguarded and can throw. -/
def ArtistE.idJ (a : ArtistE) : Except String JVal :=
  if a.artistResponse.truthy && (a.artistResponse.getD "artists").truthy then do
    let item0 ← ((a.artistResponse.getD "artists").getD "items").idxThrow 0
    if item0.truthy && (item0.getD "id").truthy then
      .ok (item0.getD "id")
    else
      .ok (.num (-1))
  else
    .ok (.num (-1))

/-- The artist-search URL of `Artist.prototype.searchForArtist`. -/
def searchArtistUrl (query : String) : String :=
  "https://api.spotify.com/v1/search?type=artist&q=" ++ encodeURIComponent query

/-- The albums-listing URL of `Artist.prototype.fetchAlbums`. -/
def artistAlbumsUrl (id : JVal) : String :=
  "https://api.spotify.com/v1/artists/" ++ encodeURIComponent id.coerceStr ++ "/albums"

/-- `Artist.prototype.searchForArtist`: keep a usable search
response, reject otherwise. -/
def ArtistE.searchForArtist (env : Env) (a : ArtistE) : Except String ArtistE := do
  let response ← env (searchArtistUrl a.entry)
  let ok ← ArtistE.isSearchResponse response
  if ok then
    .ok { a with artistResponse := response }
  else
    .error "rejected: not an artist search response"

/-- `Artist.prototype.fetchAlbums`: fetch the albums listing; keep a
body with `items`, reject otherwise. -/
def ArtistE.fetchAlbums (env : Env) (a : ArtistE) : Except String (ArtistE × JVal) := do
  let id ← ArtistE.idJ a
  let response ← env (artistAlbumsUrl id)
  let items ← response.getThrow "items"
  if items.truthy then
    .ok ({ a with albumsResponse := response }, response)
  else
    .error "rejected: no items in albums response"

/-! ## `Queue.prototype` dispatch / flatten -/

/-- `Album.prototype.createQueue`: one `Track` per element of
`response.tracks.items`, each constructed with the album entry text
and the listing element; `response.tracks` may be `undefined`, in
which case the `.items` access throws. -/
def AlbumE.createQueue (a : AlbumE) (response : JVal) : Except String Item := do
  let items ← (response.getD "tracks").getThrow "items"
  let tracks := match items with
    | .arr xs => xs.toList
    | _ => []
  .ok (.queue (ItemL.ofList (tracks.map fun tr => .track (Track.make a.entry tr))))

/-- `Album.prototype.dispatch`: with a search response, fetch the
album and build its queue; with an album response, fetch the album
and then crash — the second branch calls `this.createQueue` from a
plain callback whose `this` is the global object, a `TypeError`; with
neither, search first, then fetch and build. -/
def AlbumE.dispatch (env : Env) (a : AlbumE) : Except String Item :=
  if a.searchResponse.truthy then do
    let (a1, response) ← AlbumE.fetchAlbum env a
    AlbumE.createQueue a1 response
  else if a.albumResponse.truthy then do
    let _ ← AlbumE.fetchAlbum env a
    .error "TypeError: this.createQueue is not a function"
  else do
    let (a1, _) ← AlbumE.searchForAlbum env a
    let (a2, response) ← AlbumE.fetchAlbum env a1
    AlbumE.createQueue a2 response

/-- `Artist.prototype.createQueue` composed with
`Artist.prototype.dispatch`: search for the artist, fetch its album
listing, construct one `Album` entry per listed album (the
constructor may throw) and dispatch the resulting queue of albums
sequentially, collecting the fulfilled expansions. -/
def ArtistE.dispatch (env : Env) (a : ArtistE) : Except String Item := do
  let a1 ← ArtistE.searchForArtist env a
  let (a2, response) ← ArtistE.fetchAlbums env a1
  let albums := match response.getD "items" with
    | .arr xs => xs.toList
    | _ => []
  let entries ← albums.mapM fun alb => AlbumE.make a2.entry alb
  .ok (.queue (ItemL.ofList
    (entries.filterMap fun alb => (AlbumE.dispatch env alb).toOption)))

mutual
/-- `entry.dispatch()` on a queue slot: tracks, albums and artists
expand; a nested queue dispatches its members (sequentially, each
rejection dropped); `undefined` has no `dispatch` method and throws. -/
def Item.dispatchI (env : Env) : Item → Except String Item
  | .track t => Track.dispatch env t
  | .album a => AlbumE.dispatch env a
  | .artist a => ArtistE.dispatch env a
  | .queue q => .ok (.queue (ItemL.dispatchL env q))
  | .undefI => .error "TypeError: entry.dispatch is not a function"

/-- `Queue.prototype.dispatch` on a nested queue payload. -/
def ItemL.dispatchL (env : Env) : ItemL → ItemL
  | .nil => .nil
  | .cons i rest =>
    match Item.dispatchI env i with
    | .ok v => .cons v (ItemL.dispatchL env rest)
    | .error _ => ItemL.dispatchL env rest
end

/-- `Queue.prototype.dispatch` at the top level:
`resolveAll(entry => entry.dispatch())`. -/
def dispatchQueue (env : Env) (q : List Item) : List Item :=
  resolveAll (Item.dispatchI env) q

mutual
/-- `Queue.prototype.flatten` of one slot: a queue is recursively
inlined, any other item passes through. -/
def Item.flat : Item → List Item
  | .queue q => ItemL.flat q
  | .track t => [.track t]
  | .album a => [.album a]
  | .artist a => [.artist a]
  | .undefI => [.undefI]

/-- `Queue.prototype.flatten` of a nested queue payload. -/
def ItemL.flat : ItemL → List Item
  | .nil => []
  | .cons i rest => Item.flat i ++ ItemL.flat rest
end

/-- `Queue.prototype.flatten` at the top level. -/
def flattenQueue (q : List Item) : List Item := q.flatMap Item.flat

end Spotify

namespace Spotify

/-! ## `Queue.prototype.contains` and `dedup` -/

/-- `obj.toString()` on a queue slot: tracks use
`Track.prototype.toString`; album, artist and queue objects inherit
`Object.prototype.toString`; `undefined` throws. -/
def Item.toStringMethod : Item → Except String JVal
  | .track t => Track.toStringM t
  | .undefI => .error "TypeError: cannot read properties of undefined (reading toString)"
  | _ => .ok (.str "[object Object]")

/-- `Track.prototype.equals`: case-folded string representations
compared with `===` (both must be strings; a non-string
representation makes `toLowerCase` throw). -/
def Track.equalsItem (t : Track) (obj : Item) : Except String Bool := do
  let v1 ← Track.toStringM t
  let s1 ← v1.toLowerMethod
  let v2 ← Item.toStringMethod obj
  let s2 ← v2.toLowerMethod
  .ok (s1 == s2)

/-- The `entry === obj` test: reference identity, approximated by
structural identity of the value model.  Two structurally equal
tracks also satisfy `equals`, so the approximation is exact on track
slots; distinct queue objects are never reference-equal in the
program, so queue slots compare `false`. -/
def itemStrictEq : Item → Item → Bool
  | .track a, .track b => decide (a = b)
  | .album a, .album b => decide (a = b)
  | .artist a, .artist b => decide (a = b)
  | .undefI, .undefI => true
  | _, _ => false

/-- `Queue.prototype.contains`: linear scan; a slot with an `equals`
method (a track) matches via `equals` or `===`, any other slot only
via `===`.  Calling `entry.equals` on an `undefined` slot throws, as
does `equals(obj)` for an `undefined` argument. -/
def containsQ : List Item → Item → Except String Bool
  | [], _ => .ok false
  | e :: rest, obj => do
    let hit ← (match e with
      | .track t => do
        let b ← Track.equalsItem t obj
        .ok (b || itemStrictEq e obj)
      | .undefI => .error "TypeError: cannot read properties of undefined (reading equals)"
      | e0 => .ok (itemStrictEq e0 obj))
    if hit then .ok true else containsQ rest obj

/-- `Queue.prototype.dedup`, with the accumulating result queue made
explicit: keep a slot iff the result so far does not `contain` it. -/
def dedupGo : List Item → List Item → Except String (List Item)
  | acc, [] => .ok acc
  | acc, x :: xs => do
    let c ← containsQ acc x
    if c then dedupGo acc xs else dedupGo (acc ++ [x]) xs

/-- `Queue.prototype.dedup`. -/
def dedupQ (q : List Item) : Except String (List Item) := dedupGo [] q

/-! ## `Queue.prototype.sort`

`Array.prototype.sort` with a consistent comparator produces the
unique stable sorted permutation (ES2019); the model realises it as
a stable insertion sort over `le a b := comparator(a,b) ≤ 0`. -/

/-- Stable insert: the new element goes after every kept element `y`
with `le y x`. -/
def sortInsert (le : α → α → Bool) : List α → α → List α
  | [], x => [x]
  | y :: ys, x => if le y x then y :: sortInsert le ys x else x :: y :: ys

/-- Stable sort (insertion sort, processing the list left to right). -/
def jsSort (le : α → α → Bool) (l : List α) : List α :=
  l.foldl (sortInsert le) []

/-! ## `Queue.prototype.group`

The source accumulates groups in `map = []`, an `Array`, keyed by the
string returned from the key function, and then concatenates the
groups with `for (var k in map)`.  Two JavaScript object-model facts
matter:

* `for..in` enumerates array-index keys (canonical decimal strings
  below `2^32 - 1`) first, in ascending numeric order, and only then
  the remaining string keys in insertion order;
* a key that collides with a built-in `Array`/`Object` prototype
  property (`push`, `length`, …) finds a truthy inherited value, so
  `map[key].push` throws a `TypeError` (`__proto__` is listed too:
  its real behaviour is prototype clobbering, which the model folds
  into the same error and the theorems exclude). -/

/-- Built-in properties reachable through `map[key]` on an array. -/
def reservedArrayProps : List String :=
  ["length", "constructor", "at", "concat", "copyWithin", "entries",
   "every", "fill", "filter", "find", "findIndex", "findLast",
   "findLastIndex", "flat", "flatMap", "forEach", "includes",
   "indexOf", "join", "keys", "lastIndexOf", "map", "pop", "push",
   "reduce", "reduceRight", "reverse", "shift", "slice", "some",
   "sort", "splice", "toLocaleString", "toReversed", "toSorted",
   "toSpliced", "toString", "unshift", "values", "with",
   "hasOwnProperty", "isPrototypeOf", "propertyIsEnumerable",
   "valueOf", "__defineGetter__", "__defineSetter__",
   "__lookupGetter__", "__lookupSetter__", "__proto__"]

/-- Numeric value of a decimal digit string. -/
def strNatVal (s : String) : Nat :=
  s.data.foldl (fun n c => n * 10 + (c.toNat - 48)) 0

/-- Canonical array-index strings: non-empty all-digit strings with
no leading zero, whose value is below `2^32 - 1`. -/
def isArrayIndexStr (s : String) : Bool :=
  !s.data.isEmpty && s.data.all Char.isDigit &&
  (s == "0" || !jsStartsWith s "0") && strNatVal s < 4294967295

/-- Keys in first-appearance order with duplicates removed. -/
def dedupKeys (ks : List String) : List String :=
  ks.foldl (fun acc k => if k ∈ acc then acc else acc ++ [k]) []

/-- `for..in` enumeration order over the group keys: array-index
keys ascending numerically, then the rest in insertion order. -/
def forInKeyOrder (ks : List String) : List String :=
  jsSort (fun a b => decide (strNatVal a ≤ strNatVal b)) (ks.filter isArrayIndexStr) ++
  ks.filter (fun k => !isArrayIndexStr k)

/-- The per-slot phase of `Queue.prototype.group`: evaluate the key
function and stop with a `TypeError` on a prototype-colliding key. -/
def groupCollect (fn : Item → Except String String) :
    List Item → Except String (List (Item × String))
  | [] => .ok []
  | x :: xs => do
    let k ← fn x
    if k ∈ reservedArrayProps then
      .error ("TypeError: array prototype property used as group key: " ++ k)
    else do
      let rest ← groupCollect fn xs
      .ok ((x, k) :: rest)

/-- `Queue.prototype.group`: partition by key, then concatenate the
groups in `for..in` key order; inside a group the slots keep their
original relative order. -/
def groupQ (fn : Item → Except String String) (q : List Item) :
    Except String (List Item) := do
  let pairs ← groupCollect fn q
  let keys := dedupKeys (pairs.map (·.2))
  .ok ((forInKeyOrder keys).flatMap fun k => (pairs.filter (·.2 == k)).map (·.1))

end Spotify

namespace Spotify

/-! ## The Playlist controller (`spotify.Playlist`) -/

/-- The `ordering` field: `null`, `'popularity'` or `'lastfm'`. -/
inductive JOrdering where
  | jnull
  | popularity
  | lastfm
deriving DecidableEq

/-- The `grouping` field: its initial value is the boolean `true`
(which matches no grouping branch), later possibly `'entry'`,
`'artist'` or `'album'`. -/
inductive JGrouping where
  | jtrue
  | entry
  | artist
  | album
deriving DecidableEq

/-- `spotify.Playlist` state. -/
structure Playlist where
  ordering : JOrdering
  grouping : JGrouping
  unique : Bool
  entries : List Item
deriving DecidableEq

/-- The constructor-initial playlist state (`ordering = null`,
`grouping = true`, `unique = true`, empty queue). -/
def initialPlaylist : Playlist := ⟨.jnull, .jtrue, true, []⟩

/-- The optional single character of `LAST.?FM` before `FM`. -/
def matchesLastfmTail (s : String) : Bool :=
  jsStartsWith s "FM" || (s != "" && jsStartsWith (jsDrop s 1) "FM")

/-- `/^#(SORT|ORDER) BY LAST.?FM/i` on the upper-cased line. -/
def matchesLastfmDirective (u : String) : Bool :=
  (jsStartsWith u "#SORT BY LAST" && matchesLastfmTail (jsDrop u 13)) ||
  (jsStartsWith u "#ORDER BY LAST" && matchesLastfmTail (jsDrop u 14))

/-- The `new spotify.Album(line.substring(7))` made by the parser:
with an `undefined` response the constructor stores neither response
(see `parseAlbumEntry_spec`). -/
def parseAlbumEntry (line : String) : Item :=
  .album ⟨jsTrim (jsDrop line 7), .undefined, .undefined⟩

/-- One iteration of the parser loop of the `spotify.Playlist`
constructor.  The branches appear in source order; all prefix
matches are case-insensitive (`i`-flagged anchored regexes). -/
def parseLine (p : Playlist) (line : String) : Playlist :=
  let u := jsToUpper line
  if jsStartsWith u "#ORDER BY POPULARITY" then { p with ordering := .popularity }
  else if matchesLastfmDirective u then { p with ordering := .lastfm }
  else if jsStartsWith u "#GROUP BY ENTRY" then { p with grouping := .entry }
  else if jsStartsWith u "#GROUP BY ARTIST" then { p with grouping := .artist }
  else if jsStartsWith u "#GROUP BY ALBUM" then { p with grouping := .album }
  else if jsStartsWith u "#UNIQUE" then { p with unique := true }
  else if jsStartsWith u "##" then p
  else if jsStartsWith u "#ALBUM " then
    { p with entries := p.entries ++ [parseAlbumEntry line] }
  else if jsStartsWith u "#ARTIST " then
    { p with entries := p.entries ++ [.artist (ArtistE.make (jsDrop line 8))] }
  else if line != "" then
    { p with entries := p.entries ++ [.track (Track.make line .undefined)] }
  else p

/-- The `spotify.Playlist` constructor: trim the program, split it on
`/\r|\n|\r\n/` (the third alternative is unreachable, so the split is
at every CR or LF) and classify each line. -/
def Playlist.parse (str : String) : Playlist :=
  let s := jsTrim str
  if s == "" then initialPlaylist
  else (jsSplitChars (fun c => c == '\r' || c == '\n') s).foldl parseLine initialPlaylist

/-- `Playlist.prototype.fetchTracks`: dispatch every entry
sequentially (rejections dropped) and flatten the result in place. -/
def Playlist.fetchTracks (env : Env) (p : Playlist) : Playlist :=
  { p with entries := flattenQueue (dispatchQueue env p.entries) }

/-- `Playlist.prototype.refreshTracks` (same body as `fetchTracks`). -/
def Playlist.refreshTracks (env : Env) (p : Playlist) : Playlist :=
  { p with entries := flattenQueue (dispatchQueue env p.entries) }

/-- `Playlist.prototype.dedup`: dedup the queue iff `unique`. -/
def Playlist.dedupStep (p : Playlist) : Except String Playlist :=
  if p.unique then do
    let q ← dedupQ p.entries
    .ok { p with entries := q }
  else .ok p

/-- `a.popularity()` on a queue slot (only tracks have the method). -/
def Item.popularityM : Item → Except String JVal
  | .track t => .ok (Track.popularity t)
  | _ => .error "TypeError: popularity is not a function"

/-- Comparator key for the popularity sort (total stand-in; the sort
only runs when every slot has a popularity, see
`orderByPopularityQ`). -/
def itemPop : Item → JVal
  | .track t => Track.popularity t
  | _ => .undefined

/-- `comparator(a,b) ≤ 0` for the popularity comparator
`(x < y) ? 1 : ((x > y) ? -1 : 0)`: a stays before b iff NOT x < y. -/
def lePop (a b : Item) : Bool := !(jsLtB (itemPop a) (itemPop b))

/-- `Playlist.prototype.orderByPopularity`: sort descending by
popularity.  On a queue with at least two slots the comparator runs
and throws if a slot has no `popularity` method; a singleton or empty
queue never invokes the comparator. -/
def orderByPopularityQ (q : List Item) : Except String (List Item) :=
  if q.length ≤ 1 then .ok q
  else if q.all fun i => (Item.popularityM i).isOk then .ok (jsSort lePop q)
  else .error "TypeError: popularity is not a function"

/-- `a.lastfm()` on a queue slot. -/
def Item.lastfmMethod : Item → Except String JVal
  | .track t => Track.lastfmJ t
  | _ => .error "TypeError: lastfm is not a function"

/-- Comparator key for the Last.fm sort (total stand-in). -/
def itemLastfm : Item → JVal
  | .track t => match Track.lastfmJ t with
    | .ok v => v
    | .error _ => .undefined
  | _ => .undefined

/-- `comparator(a,b) ≤ 0` for the Last.fm comparator. -/
def leLastfm (a b : Item) : Bool := !(jsLtB (itemLastfm a) (itemLastfm b))

/-- `Playlist.prototype.orderByLastfm`. -/
def orderByLastfmQ (q : List Item) : Except String (List Item) :=
  if q.length ≤ 1 then .ok q
  else if q.all fun i => (Item.lastfmMethod i).isOk then .ok (jsSort leLastfm q)
  else .error "TypeError: lastfm is not a function"

/-- `entry.fetchLastfm()` on a queue slot: look up the Last.fm info
for artist and title and store the response on the track. -/
def Item.fetchLastfmI (lfm : Lfm) : Item → Except String Item
  | .track t => do
    let artist ← Track.artistM t
    let result ← lfm artist (Track.titleJ t)
    .ok (.track { t with lastfmResponse := result })
  | _ => .error "TypeError: entry.fetchLastfm is not a function"

/-- `Playlist.prototype.fetchLastfm`: `resolveAll` over
`entry.fetchLastfm()`, whose collected result queue is DISCARDED —
the effect is the in-place mutation of each track, so slots whose
fetch rejected stay in the queue unchanged. -/
def Playlist.fetchLastfmStep (lfm : Lfm) (p : Playlist) : Playlist :=
  { p with entries := p.entries.map fun i =>
      match Item.fetchLastfmI lfm i with
      | .ok v => v
      | .error _ => i }

/-- `Playlist.prototype.order`: the popularity branch refreshes and
then sorts; the lastfm branch annotates and then sorts; a `null`
ordering does nothing. -/
def Playlist.orderStep (env : Env) (lfm : Lfm) (p : Playlist) :
    Except String Playlist :=
  match p.ordering with
  | .popularity =>
    let r := Playlist.refreshTracks env p
    (orderByPopularityQ r.entries).map fun q => { r with entries := q }
  | .lastfm =>
    let r := Playlist.fetchLastfmStep lfm p
    (orderByLastfmQ r.entries).map fun q => { r with entries := q }
  | .jnull => .ok p

/-- `track.artist().toLowerCase()` as a group key. -/
def keyArtist : Item → Except String String
  | .track t => do
    let a ← Track.artistM t
    .ok (jsToLower a)
  | _ => .error "TypeError: track.artist is not a function"

/-- `track.album().toLowerCase()` as a group key. -/
def keyAlbum : Item → Except String String
  | .track t => (Track.albumJ t).toLowerMethod
  | _ => .error "TypeError: track.album is not a function"

/-- `track.entry.toLowerCase()` as a group key (album and artist
entries also carry `entry`; `undefined` and queue slots throw). -/
def keyEntry : Item → Except String String
  | .track t => .ok (jsToLower t.entry)
  | .album a => .ok (jsToLower a.entry)
  | .artist a => .ok (jsToLower a.entry)
  | _ => .error "TypeError: cannot read entry"

/-- `Playlist.prototype.groupByArtist`. -/
def Playlist.groupByArtist (p : Playlist) : Except String Playlist :=
  (groupQ keyArtist p.entries).map fun q => { p with entries := q }

/-- `Playlist.prototype.groupByAlbum` — the method itself, as invoked
with a correct receiver. -/
def Playlist.groupByAlbum (p : Playlist) : Except String Playlist :=
  (groupQ keyAlbum p.entries).map fun q => { p with entries := q }

/-- `Playlist.prototype.groupByEntry`. -/
def Playlist.groupByEntry (p : Playlist) : Except String Playlist :=
  (groupQ keyEntry p.entries).map fun q => { p with entries := q }

/-- `Playlist.prototype.group`.  The album branch is
`this.refreshTracks().then(this.groupByAlbum)`: the method reference
is passed UNBOUND, so when the promise machinery invokes it, `this`
is the global object and `this.entries` is `undefined` — after the
refresh completes, the step always rejects with a `TypeError` instead
of grouping. -/
def Playlist.groupStep (env : Env) (p : Playlist) : Except String Playlist :=
  match p.grouping with
  | .artist => Playlist.groupByArtist p
  | .album =>
    let _refreshed := Playlist.refreshTracks env p
    .error "TypeError: cannot read properties of undefined (reading group)"
  | .entry => Playlist.groupByEntry p
  | .jtrue => .ok p

/-- `track.uri()` on a queue slot. -/
def Item.uriMethod : Item → Except String JVal
  | .track t => .ok (Track.uriJ t)
  | _ => .error "TypeError: track.uri is not a function"

/-- The `forEach` body of `Playlist.prototype.toString`: the two
`console.log` calls evaluate `track.toString()` and `track.lastfm()`
(either may throw), then the uri is appended (`+ '\n'`) whenever it
is `!== ''`. -/
def toStrGo : List Item → String → Except String String
  | [], acc => .ok acc
  | i :: rest, acc => do
    let _logged ← Item.toStringMethod i
    let _lfmLogged ← Item.lastfmMethod i
    let uri ← Item.uriMethod i
    if !uri.isEmptyStr then
      toStrGo rest (acc ++ uri.coerceStr ++ "\n")
    else
      toStrGo rest acc

/-- `Playlist.prototype.toString`: accumulate the uris and `trim()`
the result. -/
def Playlist.toStr (p : Playlist) : Except String String := do
  let s ← toStrGo p.entries ""
  .ok (jsTrim s)

/-- `Playlist.prototype.dispatch`: fetch, dedup, order, group,
render.  Each stage runs in a promise callback, so a stage that
throws or rejects rejects the whole dispatch. -/
def Playlist.dispatch (env : Env) (lfm : Lfm) (p : Playlist) :
    Except String String := do
  let p1 := Playlist.fetchTracks env p
  let p2 ← Playlist.dedupStep p1
  let p3 ← Playlist.orderStep env lfm p2
  let p4 ← Playlist.groupStep env p3
  Playlist.toStr p4

end Spotify

namespace Spotify

/-! ## Spec-side definitions

These definitions follow the specification text (not the source);
they exist to compare the code against the claimed behaviour. -/

/-- Spec-side: a stable partition that concatenates the groups in
first-appearance order of their keys, keeping the original relative
order inside each group. -/
def specGroupFirstAppearance (key : Item → String) (q : List Item) : List Item :=
  (dedupKeys (q.map key)).flatMap fun k => q.filter fun x => key x == k

/-- One step of keeping first occurrences: append the element unless
an already-kept one is equivalent to it. -/
def keepFirstStep (equiv : Item → Item → Bool) (acc : List Item) (x : Item) :
    List Item :=
  if acc.any (fun y => equiv y x) then acc else acc ++ [x]

/-- Spec-side: keep exactly the first occurrence of each equivalence
class of the given relation. -/
def specKeepFirst (equiv : Item → Item → Bool) (q : List Item) : List Item :=
  q.foldl (keepFirstStep equiv) []

/-- The case-folded `toString()` of a track, when it is a string. -/
def trackFoldedKey (t : Track) : Option String :=
  match Track.toStringM t with
  | .ok (.str s) => some (jsToLower s)
  | _ => none

/-- The claimed dedup equivalence: reference-identical (structural
identity in the value model) or both Tracks with matching case-folded
`toString()`. -/
def claimEquiv (a b : Item) : Bool :=
  decide (a = b) ||
  (match a, b with
   | .track t1, .track t2 =>
     match trackFoldedKey t1, trackFoldedKey t2 with
     | some s1, some s2 => s1 == s2
     | _, _ => false
   | _, _ => false)

/-- Spec-side: newline join with no trailing newline. -/
def joinNl : List String → String
  | [] => ""
  | [u] => u
  | u :: rest => u ++ "\n" ++ joinNl rest

/-- The claimed output-line shape `<scheme>:track:[A-Za-z0-9]+`,
read with a non-empty alphanumeric scheme. -/
def uriPatternL (cs : List Char) : Bool :=
  let scheme := cs.takeWhile fun c => c != ':'
  let rest := cs.dropWhile fun c => c != ':'
  !scheme.isEmpty && scheme.all Char.isAlphanum &&
  (":track:".data.isPrefixOf rest) &&
  (let id := rest.drop 7
   !id.isEmpty && id.all Char.isAlphanum)

/-- `uriPatternL` on a string. -/
def uriPattern (s : String) : Bool := uriPatternL s.data

/-! ## Concrete inputs used by the theorems -/

/-- A Last.fm collaborator that rejects every lookup (the pipeline
stages under scrutiny never consult it). -/
def lfmNone : Lfm := fun _ _ => .error "lastfm disabled"

/-- A gateway for scenario S6: the search for `nonexistent-xyz`
returns zero items, every other URL fails. -/
def c1Env : Env := fun url =>
  if url = "https://api.spotify.com/v1/search?type=track&q=nonexistent-xyz" then
    .ok (.obj (jobjOf [("tracks", .obj (jobjOf [("items", .arr (jarrOf []))]))]))
  else .error "404"

/-- A full track response (popularity 50) for track id `abc123`. -/
def c2Resp : JVal :=
  .obj (jobjOf [("id", .str "abc123"), ("uri", .str "spotify:track:abc123"),
    ("name", .str "Song"), ("popularity", .num 50),
    ("artists", .arr (jarrOf [.obj (jobjOf [("name", .str "Band")])])),
    ("album", .obj (jobjOf [("name", .str "Album")]))])

/-- A gateway serving exactly the track fetch for `abc123`. -/
def c2Env : Env := fun url =>
  if url = "https://api.spotify.com/v1/tracks/abc123" then .ok c2Resp
  else .error "404"

/-! ## Claim theorems -/

/-- C1: the claim reads `Playlist.dispatch` never raises, and in
particular a single track entry whose search returns zero items
yields the empty output.  The code disagrees: `searchForTrack`
FULFILS with `undefined` when the search has no usable hit, the
`undefined` slot survives flatten and dedup, and
`Playlist.prototype.toString` then calls `track.toString()` on
`undefined` — a `TypeError` that rejects the whole dispatch.  This
theorem evaluates the pipeline at exactly the claimed scenario S6. -/
theorem c1_empty_search_dispatch_rejects :
    Playlist.dispatch c1Env lfmNone (Playlist.parse "nonexistent-xyz\n") =
      .error "TypeError: cannot read properties of undefined (reading toString)" := rfl

/-- C2: the claim reads that with grouping `album` the pipeline
refreshes the tracks and hands the album-grouped queue to the
renderer.  The code disagrees: `group()` chains
`this.refreshTracks().then(this.groupByAlbum)` with the method
reference unbound, so the callback dereferences
`undefined.entries` and the dispatch rejects after the refresh;
the renderer is never reached.  The second conjunct shows the
intended method, invoked with a correct receiver on the same
refreshed state, groups fine. -/
theorem c2_group_album_rejects :
    Playlist.dispatch c2Env lfmNone
        (Playlist.parse "#GROUP BY ALBUM\nspotify:track:abc123") =
      .error "TypeError: cannot read properties of undefined (reading group)" ∧
    Playlist.groupByAlbum
        (Playlist.refreshTracks c2Env
          (Playlist.fetchTracks c2Env
            (Playlist.parse "#GROUP BY ALBUM\nspotify:track:abc123"))) =
      .ok { ordering := .jnull, grouping := .album, unique := true,
            entries := [.track ⟨"spotify:track:abc123", .undefined, c2Resp, .jnull⟩] } :=
  ⟨rfl, rfl⟩

/-- C3 counterexample: the claim reads that a `#` line matching no
directive is silently ignored.  On the concrete line `#FOO` the
parser instead appends a Track entry with the line as its query. -/
theorem c3_unknown_directive_appends_track :
    Playlist.parse "#FOO" =
      { initialPlaylist with entries := [.track (Track.make "#FOO" .undefined)] } ∧
    (Playlist.parse "#FOO").entries ≠ [] :=
  ⟨rfl, by decide⟩

end Spotify

namespace Spotify

/-- A line beginning with `#` is non-empty. -/
theorem startsHash_ne_empty (line : String)
    (h : jsStartsWith line "#" = true) : (line != "") = true := by
  cases line with
  | mk data =>
    cases data with
    | nil => simp [jsStartsWith, List.isPrefixOf] at h
    | cons c cs =>
      simp only [bne_iff_ne, ne_eq]
      intro heq
      exact List.cons_ne_nil c cs (congrArg String.data heq)

/-- C3 amended: a line that begins with `#` and matches none of the
recognized directives is NOT ignored — the parser leaves every
playlist option unchanged and appends one Track entry whose query is
the whole line. -/
theorem c3_amended (p : Playlist) (line : String)
    (h0 : jsStartsWith line "#" = true)
    (h1 : jsStartsWith (jsToUpper line) "#ORDER BY POPULARITY" = false)
    (h2 : matchesLastfmDirective (jsToUpper line) = false)
    (h3 : jsStartsWith (jsToUpper line) "#GROUP BY ENTRY" = false)
    (h4 : jsStartsWith (jsToUpper line) "#GROUP BY ARTIST" = false)
    (h5 : jsStartsWith (jsToUpper line) "#GROUP BY ALBUM" = false)
    (h6 : jsStartsWith (jsToUpper line) "#UNIQUE" = false)
    (h7 : jsStartsWith (jsToUpper line) "##" = false)
    (h8 : jsStartsWith (jsToUpper line) "#ALBUM " = false)
    (h9 : jsStartsWith (jsToUpper line) "#ARTIST " = false) :
    parseLine p line =
      { p with entries := p.entries ++ [.track (Track.make line .undefined)] } := by
  have hne := startsHash_ne_empty line h0
  unfold parseLine
  simp only [h1, h2, h3, h4, h5, h6, h7, h8, h9, hne, if_true, if_false,
    Bool.false_eq_true, ite_false, ite_true]

/-- C3 amended witness at the line `#FOO` on the initial playlist. -/
theorem c3_amended_witness :
    (jsStartsWith "#FOO" "#" = true ∧
     jsStartsWith (jsToUpper "#FOO") "#ORDER BY POPULARITY" = false ∧
     matchesLastfmDirective (jsToUpper "#FOO") = false) ∧
    parseLine initialPlaylist "#FOO" =
      { initialPlaylist with
        entries := [.track (Track.make "#FOO" .undefined)] } :=
  ⟨⟨by decide, by decide, by decide⟩,
   c3_amended initialPlaylist "#FOO" (by decide) (by decide) (by decide)
     (by decide) (by decide) (by decide) (by decide) (by decide)
     (by decide) (by decide)⟩

/-- C9: on a track whose full response is absent (`null`) but whose
simplified response is truthy with a truthy `artists` field,
`artists()` throws (the guard reads the simplified response, the
mapping dereferences `this.response.artists`), while `artist()` and
`title()` read the simplified response as usual. -/
theorem c9_artists_throws (t : Track)
    (hfull : t.response = JVal.jnull)
    (hsimple : t.responseSimple.truthy = true)
    (harts : (t.responseSimple.getD "artists").truthy = true) :
    Track.artistsM t =
      .error "TypeError: cannot read properties of null (reading artists)" ∧
    (∀ s : String,
      ((t.responseSimple.getD "artists").idx 0).truthy = true →
      (((t.responseSimple.getD "artists").idx 0).getD "name") = .str s →
      s ≠ "" →
      Track.artistM t = .ok (jsTrim s)) ∧
    (∀ v : JVal, t.responseSimple.getD "name" = v → v.truthy = true →
      Track.titleJ t = v) := by
  have hrf : t.response.truthy = false := by rw [hfull]; rfl
  refine ⟨?_, ?_, ?_⟩
  · unfold Track.artistsM
    rw [hrf]
    simp only [if_false, Bool.false_eq_true, ite_false, hsimple, harts,
      Bool.and_self, if_true, ite_true]
    rw [hfull]
    rfl
  · intro s h1 h2 h3
    unfold Track.artistM
    rw [hrf]
    simp only [Bool.false_eq_true, ite_false, hsimple, if_true, ite_true, harts, h1, h2]
    have : (JVal.str s).truthy = true := by
      simp [JVal.truthy, bne, h3]
    rw [this]
    rfl
  · intro v h1 h2
    unfold Track.titleJ
    rw [hrf]
    simp only [Bool.false_eq_true, ite_false, hsimple, if_true, ite_true, h1, h2]

/-- The concrete simplified-only track of the C9 witness. -/
def c9Track : Track :=
  ⟨"q", .obj (jobjOf [("artists", .arr (jarrOf [.obj (jobjOf [("name", .str " A ")])])),
      ("name", .str "T")]), .jnull, .jnull⟩

/-- C9 witness: a concrete simplified-only track. -/
theorem c9_witness :
    (c9Track.response = JVal.jnull ∧
     c9Track.responseSimple.truthy = true ∧
     (c9Track.responseSimple.getD "artists").truthy = true) ∧
    Track.artistsM c9Track =
      .error "TypeError: cannot read properties of null (reading artists)" ∧
    Track.artistM c9Track = .ok "A" :=
  ⟨⟨rfl, rfl, rfl⟩,
   (c9_artists_throws c9Track rfl rfl rfl).1,
   by
    have h := (c9_artists_throws c9Track rfl rfl rfl).2.1 " A "
      (by decide) (by decide) (by decide)
    simpa using h⟩

/-- C10: a constructor response whose `popularity` is `0` or absent
fails `isFullResponse`, so it is stored as the SIMPLIFIED response;
`popularity()` then answers `-1` and a later `dispatch` takes the
`fetchTrack` path (`GET /tracks/<id>`), even if the object originally
was a full track response. -/
theorem c10_simple_storage (entry : String) (resp : JVal)
    (h1 : resp.truthy = true)
    (h2 : (resp.getD "popularity").truthy = false) :
    Track.make entry resp =
      { entry := jsTrim entry, responseSimple := resp, response := .jnull,
        lastfmResponse := .jnull } ∧
    Track.popularity (Track.make entry resp) = .num (-1) ∧
    (∀ env : Env,
      Track.dispatch env (Track.make entry resp) =
        Track.fetchTrack env (Track.make entry resp)) := by
  have hfull : Track.isFullResponse resp = false := by
    unfold Track.isFullResponse
    rw [h2, Bool.and_false]
  have hmk : Track.make entry resp =
      { entry := jsTrim entry, responseSimple := resp, response := .jnull,
        lastfmResponse := .jnull } := by
    unfold Track.make
    rw [hfull]
    rfl
  refine ⟨hmk, ?_, ?_⟩
  · rw [hmk]
    rfl
  · intro env
    have e1 : (Track.make entry resp).response = JVal.jnull :=
      congrArg Track.response hmk
    have e2 : (Track.make entry resp).responseSimple = resp :=
      congrArg Track.responseSimple hmk
    unfold Track.dispatch
    rw [e1, e2]
    simp [show JVal.jnull.truthy = false from rfl, h1]

/-- The constructor response of the C10 witness: a track object with
`popularity: 0`. -/
def c10Resp : JVal := .obj (jobjOf [("id", .str "abc"), ("popularity", .num 0)])

/-- C10 witness: a response carrying an id and `popularity: 0`. -/
theorem c10_witness :
    (c10Resp.truthy = true ∧ (c10Resp.getD "popularity").truthy = false) ∧
    Track.popularity (Track.make "x" c10Resp) = .num (-1) ∧
    Track.dispatch (fun _ => .error "offline") (Track.make "x" c10Resp) =
      Track.fetchTrack (fun _ => .error "offline") (Track.make "x" c10Resp) :=
  ⟨⟨rfl, rfl⟩,
   (c10_simple_storage "x" c10Resp rfl rfl).2.1,
   (c10_simple_storage "x" c10Resp rfl rfl).2.2 _⟩

end Spotify

namespace Spotify

/-- Appending strings appends their character lists. -/
theorem string_data_append (a b : String) : (a ++ b).data = a.data ++ b.data := by
  cases a
  cases b
  rfl

/-- Reduction of a bind applied to a fulfilled `Except` (do-blocks
over `Except` step through this). -/
theorem except_bind_ok {α β ε : Type} (a : α) (f : α → Except ε β) :
    (Except.ok a >>= f : Except ε β) = f a := rfl

/-- `A - B` never compares equal to the empty string. -/
theorem str_concat_sep_ne_empty (a b : String) : ((a ++ " - " ++ b) == "") = false := by
  rw [beq_eq_false_iff_ne]
  intro h
  have hd := congrArg String.data h
  rw [string_data_append, string_data_append,
    show (" - " : String).data = [' ', '-', ' '] from rfl] at hd
  simp at hd

/-- C7: `a.equals(b)` holds iff the case-folded `toString()` values
agree (first conjunct); `toString()` is `Title - Artist` when both
are non-empty, the bare title value when the artist is empty, and the
raw entry text when the title is empty (middle conjuncts); hence two
unresolved Tracks whose entries trim to the same query string compare
equal (last conjunct). -/
theorem c7_track_equality :
    (∀ (t1 t2 : Track) (s1 s2 : String),
      Track.toStringM t1 = .ok (.str s1) →
      Track.toStringM t2 = .ok (.str s2) →
      Track.equalsItem t1 (.track t2) = .ok (jsToLower s1 == jsToLower s2)) ∧
    (∀ (t : Track) (st sa : String),
      Track.titleJ t = .str st → st ≠ "" →
      Track.artistM t = .ok sa → sa ≠ "" →
      Track.toStringM t = .ok (.str (st ++ " - " ++ sa))) ∧
    (∀ (t : Track) (st : String),
      Track.titleJ t = .str st → st ≠ "" →
      Track.artistM t = .ok "" →
      Track.toStringM t = .ok (.str st)) ∧
    (∀ t : Track, Track.titleJ t = .str "" →
      Track.toStringM t = .ok (.str t.entry)) ∧
    (∀ e1 e2 : String, jsTrim e1 = jsTrim e2 →
      Track.equalsItem (Track.make e1 .undefined) (.track (Track.make e2 .undefined)) =
        .ok true) := by
  have hToStr : ∀ (t1 t2 : Track) (s1 s2 : String),
      Track.toStringM t1 = .ok (.str s1) →
      Track.toStringM t2 = .ok (.str s2) →
      Track.equalsItem t1 (.track t2) = .ok (jsToLower s1 == jsToLower s2) := by
    intro t1 t2 s1 s2 h1 h2
    simp only [Track.equalsItem, Item.toStringMethod, h1, h2]
    rfl
  have hUnres : ∀ e : String,
      Track.toStringM (Track.make e .undefined) = .ok (.str (jsTrim e)) := by
    intro e
    rfl
  refine ⟨hToStr, ?_, ?_, ?_, ?_⟩
  · intro t st sa ht hst ha hsa
    have hname : Track.nameM t = .ok (.str (st ++ " - " ++ sa)) := by
      simp [Track.nameM, ht, ha, except_bind_ok, JVal.isEmptyStr, hst, hsa,
        JVal.coerceStr, bne]
    simp [Track.toStringM, hname, except_bind_ok, JVal.isEmptyStr,
      str_concat_sep_ne_empty st sa]
  · intro t st ht hst ha
    have hname : Track.nameM t = .ok (.str st) := by
      simp [Track.nameM, ht, ha, except_bind_ok, JVal.isEmptyStr, hst, bne]
    simp [Track.toStringM, hname, except_bind_ok, JVal.isEmptyStr, hst]
  · intro t ht
    have hname : Track.nameM t = .ok (.str "") := by
      simp [Track.nameM, ht, JVal.isEmptyStr]
    simp [Track.toStringM, hname, except_bind_ok, JVal.isEmptyStr]
  · intro e1 e2 h
    have := hToStr (Track.make e1 .undefined) (Track.make e2 .undefined)
      (jsTrim e1) (jsTrim e2) (hUnres e1) (hUnres e2)
    rw [this, h]
    simp

/-- The full response of the C7 witness track (`popularity 7`). -/
def c7Resp : JVal :=
  .obj (jobjOf [("name", .str "Title"), ("popularity", .num 7),
    ("artists", .arr (jarrOf [.obj (jobjOf [("name", .str "Artist")])]))])

/-- C7 witness: the equality test on two concrete tracks, the three
`toString` shapes, and two unresolved tracks with the same query. -/
theorem c7_witness :
    (Track.toStringM (Track.make "x" c7Resp) = .ok (.str "Title - Artist") ∧
     Track.equalsItem (Track.make "x" c7Resp) (.track (Track.make "y" c7Resp)) =
       .ok (jsToLower "Title - Artist" == jsToLower "Title - Artist") ∧
     Track.toStringM (Track.make "q" .undefined) = .ok (.str "q")) ∧
    Track.equalsItem (Track.make " q" .undefined) (.track (Track.make "q " .undefined)) =
      .ok true :=
  ⟨⟨(c7_track_equality.2.1 (Track.make "x" c7Resp) "Title" "Artist" rfl
      (by decide) rfl (by decide)),
    (c7_track_equality.1 (Track.make "x" c7Resp) (Track.make "y" c7Resp)
      "Title - Artist" "Title - Artist" rfl rfl),
    (c7_track_equality.2.2.2.1 (Track.make "q" .undefined) rfl)⟩,
   c7_track_equality.2.2.2.2 " q" "q " rfl⟩

end Spotify

namespace Spotify

/-! ## Dedup lemmas (claim C4) -/

/-- A queue slot that is a track with a string-valued `toString()`. -/
def goodTrackItem : Item → Bool
  | .track t => (trackFoldedKey t).isSome
  | _ => false

/-- `Track.prototype.equals` on two tracks with string
representations compares their case-folded strings. -/
theorem track_equals_strings (t1 t2 : Track) (s1 s2 : String)
    (h1 : Track.toStringM t1 = .ok (.str s1))
    (h2 : Track.toStringM t2 = .ok (.str s2)) :
    Track.equalsItem t1 (.track t2) = .ok (jsToLower s1 == jsToLower s2) := by
  simp only [Track.equalsItem, Item.toStringMethod, h1, h2]
  rfl

/-- Unpacking `goodTrackItem`. -/
theorem goodTrackItem_spec {i : Item} (h : goodTrackItem i = true) :
    ∃ t s, i = .track t ∧ Track.toStringM t = .ok (.str s) ∧
      trackFoldedKey t = some (jsToLower s) := by
  cases i with
  | track t =>
    cases htos : Track.toStringM t with
    | ok v =>
      cases v with
      | str s =>
        refine ⟨t, s, rfl, htos, ?_⟩
        unfold trackFoldedKey
        rw [htos]
      | undefined =>
        exfalso
        rw [show goodTrackItem (Item.track t) = (trackFoldedKey t).isSome from rfl] at h
        unfold trackFoldedKey at h
        rw [htos] at h
        simp at h
      | jnull =>
        exfalso
        rw [show goodTrackItem (Item.track t) = (trackFoldedKey t).isSome from rfl] at h
        unfold trackFoldedKey at h
        rw [htos] at h
        simp at h
      | nan =>
        exfalso
        rw [show goodTrackItem (Item.track t) = (trackFoldedKey t).isSome from rfl] at h
        unfold trackFoldedKey at h
        rw [htos] at h
        simp at h
      | bool b =>
        exfalso
        rw [show goodTrackItem (Item.track t) = (trackFoldedKey t).isSome from rfl] at h
        unfold trackFoldedKey at h
        rw [htos] at h
        simp at h
      | num n =>
        exfalso
        rw [show goodTrackItem (Item.track t) = (trackFoldedKey t).isSome from rfl] at h
        unfold trackFoldedKey at h
        rw [htos] at h
        simp at h
      | arr xs =>
        exfalso
        rw [show goodTrackItem (Item.track t) = (trackFoldedKey t).isSome from rfl] at h
        unfold trackFoldedKey at h
        rw [htos] at h
        simp at h
      | obj fs =>
        exfalso
        rw [show goodTrackItem (Item.track t) = (trackFoldedKey t).isSome from rfl] at h
        unfold trackFoldedKey at h
        rw [htos] at h
        simp at h
    | error e =>
        exfalso
        rw [show goodTrackItem (Item.track t) = (trackFoldedKey t).isSome from rfl] at h
        unfold trackFoldedKey at h
        rw [htos] at h
        simp at h
  | album a => simp [goodTrackItem] at h
  | artist a => simp [goodTrackItem] at h
  | queue q => simp [goodTrackItem] at h
  | undefI => simp [goodTrackItem] at h

/-- On good tracks, `contains` computes membership modulo the claimed
equivalence. -/
theorem contains_good : ∀ (acc : List Item) (x : Item),
    (∀ i ∈ acc, goodTrackItem i = true) → goodTrackItem x = true →
    containsQ acc x = .ok (acc.any fun y => claimEquiv y x)
  | [], x, _, _ => rfl
  | e :: rest, x, hacc, hx => by
    obtain ⟨te, se, he, htos, hkey⟩ := goodTrackItem_spec (hacc e (by simp))
    obtain ⟨tx, sx, hxeq, hxtos, hxkey⟩ := goodTrackItem_spec hx
    subst he hxeq
    have heq := track_equals_strings te tx se sx htos hxtos
    have hrest := contains_good rest (Item.track tx)
      (fun i hi => hacc i (by simp [hi])) hx
    have hclaim : claimEquiv (.track te) (.track tx) =
        ((jsToLower se == jsToLower sx) || decide (te = tx)) := by
      simp only [claimEquiv, hkey, hxkey]
      rw [Bool.or_comm]
      congr 1
      simp only [Item.track.injEq]
    simp only [containsQ, heq, except_bind_ok, itemStrictEq, List.any_cons, hclaim]
    by_cases hc : ((jsToLower se == jsToLower sx) || decide (te = tx)) = true
    · simp [hc]
    · simp only [Bool.not_eq_true] at hc
      simp [hc, hrest]

/-- On good-track queues, `dedup` is the keep-first fold of the
claimed equivalence. -/
theorem dedup_good : ∀ (q acc : List Item),
    (∀ i ∈ acc, goodTrackItem i = true) → (∀ i ∈ q, goodTrackItem i = true) →
    dedupGo acc q = .ok (q.foldl (keepFirstStep claimEquiv) acc)
  | [], acc, _, _ => rfl
  | x :: xs, acc, hacc, hq => by
    have hx : goodTrackItem x = true := hq x (by simp)
    have hxs : ∀ i ∈ xs, goodTrackItem i = true := fun i hi => hq i (by simp [hi])
    have hcont := contains_good acc x hacc hx
    simp only [dedupGo, hcont, except_bind_ok, List.foldl_cons, keepFirstStep]
    by_cases hc : (acc.any fun y => claimEquiv y x) = true
    · simp only [hc, if_true, ite_true]
      exact dedup_good xs acc hacc hxs
    · simp only [Bool.not_eq_true] at hc
      simp only [hc, Bool.false_eq_true, if_false, ite_false]
      exact dedup_good xs (acc ++ [x])
        (by
          intro i hi
          rcases List.mem_append.mp hi with h | h
          · exact hacc i h
          · simp at h; subst h; exact hx)
        hxs

/-- The keep-first fold preserves pairwise non-equivalence of the
kept prefix. -/
theorem keepFirst_pairwise (equiv : Item → Item → Bool) :
    ∀ (q acc : List Item),
    acc.Pairwise (fun a b => equiv a b = false) →
    (q.foldl (keepFirstStep equiv) acc).Pairwise (fun a b => equiv a b = false)
  | [], acc, h => h
  | x :: xs, acc, h => by
    simp only [List.foldl_cons, keepFirstStep]
    by_cases hc : (acc.any fun y => equiv y x) = true
    · simp only [hc, if_true, ite_true]
      exact keepFirst_pairwise equiv xs acc h
    · simp only [Bool.not_eq_true] at hc
      simp only [hc, Bool.false_eq_true, if_false, ite_false]
      refine keepFirst_pairwise equiv xs (acc ++ [x]) ?_
      rw [List.pairwise_append]
      refine ⟨h, by simp, ?_⟩
      intro a ha b hb
      simp at hb
      subst hb
      have ha2 := List.any_eq_false.mp hc a ha
      simpa using ha2

/-- A pairwise non-equivalent list passes the keep-first fold
unchanged. -/
theorem keepFirst_fixed (equiv : Item → Item → Bool) :
    ∀ (r acc : List Item),
    (acc ++ r).Pairwise (fun a b => equiv a b = false) →
    r.foldl (keepFirstStep equiv) acc = acc ++ r
  | [], acc, _ => by simp
  | x :: xs, acc, h => by
    have hcross : ∀ a ∈ acc, equiv a x = false := by
      rw [List.pairwise_append] at h
      intro a ha
      exact h.2.2 a ha x (by simp)
    have hany : (acc.any fun y => equiv y x) = false :=
      List.any_eq_false.mpr (by intro a ha; simp [hcross a ha])
    simp only [List.foldl_cons, keepFirstStep, hany, Bool.false_eq_true,
      if_false, ite_false]
    have h2 : ((acc ++ [x]) ++ xs).Pairwise (fun a b => equiv a b = false) := by
      rw [List.append_assoc]
      simpa using h
    rw [keepFirst_fixed equiv xs (acc ++ [x]) h2]
    simp

/-- Keeping first occurrences is idempotent. -/
theorem specKeepFirst_idem (equiv : Item → Item → Bool) (q : List Item) :
    specKeepFirst equiv (specKeepFirst equiv q) = specKeepFirst equiv q := by
  unfold specKeepFirst
  exact keepFirst_fixed equiv (q.foldl (keepFirstStep equiv) [])
    [] (by simpa using keepFirst_pairwise equiv q [] (by simp))

/-- Elements of the keep-first fold come from the accumulator or the
queue. -/
theorem keepFirst_mem (equiv : Item → Item → Bool) :
    ∀ (q acc : List Item) (x : Item),
    x ∈ q.foldl (keepFirstStep equiv) acc → x ∈ acc ∨ x ∈ q
  | [], acc, x, h => .inl h
  | y :: ys, acc, x, h => by
    simp only [List.foldl_cons, keepFirstStep] at h
    by_cases hc : (acc.any fun z => equiv z y) = true
    · rw [hc] at h
      simp only [if_true, ite_true] at h
      rcases keepFirst_mem equiv ys acc x h with h2 | h2
      · exact .inl h2
      · exact .inr (by simp [h2])
    · simp only [Bool.not_eq_true] at hc
      rw [hc] at h
      simp only [Bool.false_eq_true, if_false, ite_false] at h
      rcases keepFirst_mem equiv ys (acc ++ [y]) x h with h2 | h2
      · rcases List.mem_append.mp h2 with h3 | h3
        · exact .inl h3
        · simp at h3; subst h3; exact .inr (by simp)
      · exact .inr (by simp [h2])

/-- C4 counterexample items: an unresolved track whose entry text is
`[object Object]`, and an album entry. -/
def c4Track : Track := ⟨"[object Object]", .undefined, .jnull, .jnull⟩

/-- The album entry of the C4 counterexample. -/
def c4Album : AlbumE := ⟨"x", .undefined, .undefined⟩

/-- C4 counterexample: on a mixed queue, `dedup` folds an Album entry
into a Track — the album inherits `Object.prototype.toString`
(`[object Object]`), which matches the unresolved track entry text
case-insensitively — although the claimed equivalence (reference
identity, or both Tracks with equal case-folded `toString()`) keeps
both. -/
theorem c4_mixed_dedup_counterexample :
    dedupQ [.track c4Track, .album c4Album] = .ok [.track c4Track] ∧
    specKeepFirst claimEquiv [.track c4Track, .album c4Album] =
      [.track c4Track, .album c4Album] ∧
    ([.track c4Track] : List Item) ≠ [.track c4Track, .album c4Album] :=
  ⟨rfl, rfl, by decide⟩

/-- C4 amended: restricted to queues of Tracks (each with a
string-valued `toString()`), `dedup` keeps exactly the first
occurrence of each equivalence class of the claimed relation, and it
is idempotent. -/
theorem c4_amended (q : List Item)
    (h : ∀ i ∈ q, goodTrackItem i = true) :
    dedupQ q = .ok (specKeepFirst claimEquiv q) ∧
    dedupQ (specKeepFirst claimEquiv q) = .ok (specKeepFirst claimEquiv q) := by
  have h1 : dedupQ q = .ok (specKeepFirst claimEquiv q) :=
    dedup_good q [] (by simp) h
  refine ⟨h1, ?_⟩
  have hgood : ∀ i ∈ specKeepFirst claimEquiv q, goodTrackItem i = true := by
    intro i hi
    rcases keepFirst_mem claimEquiv q [] i hi with h2 | h2
    · simp at h2
    · exact h i h2
  have h2 := dedup_good (specKeepFirst claimEquiv q) [] (by simp) hgood
  have h3 : (specKeepFirst claimEquiv q).foldl (keepFirstStep claimEquiv) [] =
      specKeepFirst claimEquiv q := specKeepFirst_idem claimEquiv q
  rw [show dedupQ (specKeepFirst claimEquiv q) =
      dedupGo [] (specKeepFirst claimEquiv q) from rfl, h2, h3]

/-- C4 amended witness: a concrete three-track queue with one
duplicate modulo case folding. -/
theorem c4_amended_witness :
    (∀ i ∈ ([.track ⟨"A", .undefined, .jnull, .jnull⟩,
             .track ⟨"a", .undefined, .jnull, .jnull⟩,
             .track ⟨"b", .undefined, .jnull, .jnull⟩] : List Item),
       goodTrackItem i = true) ∧
    dedupQ [.track ⟨"A", .undefined, .jnull, .jnull⟩,
            .track ⟨"a", .undefined, .jnull, .jnull⟩,
            .track ⟨"b", .undefined, .jnull, .jnull⟩] =
      .ok (specKeepFirst claimEquiv
            [.track ⟨"A", .undefined, .jnull, .jnull⟩,
             .track ⟨"a", .undefined, .jnull, .jnull⟩,
             .track ⟨"b", .undefined, .jnull, .jnull⟩]) ∧
    specKeepFirst claimEquiv
        [.track ⟨"A", .undefined, .jnull, .jnull⟩,
         .track ⟨"a", .undefined, .jnull, .jnull⟩,
         .track ⟨"b", .undefined, .jnull, .jnull⟩] =
      [.track ⟨"A", .undefined, .jnull, .jnull⟩,
       .track ⟨"b", .undefined, .jnull, .jnull⟩] :=
  ⟨by decide,
   (c4_amended _ (by decide)).1,
   by decide⟩

end Spotify

namespace Spotify

/-! ## Group lemmas (claim C5) -/

/-- Membership in the key-dedup fold. -/
theorem dedupKeys_go_mem : ∀ (ks acc : List String) (k : String),
    k ∈ ks.foldl (fun a x => if x ∈ a then a else a ++ [x]) acc ↔
      (k ∈ acc ∨ k ∈ ks)
  | [], acc, k => by simp
  | x :: xs, acc, k => by
    simp only [List.foldl_cons]
    by_cases hx : x ∈ acc
    · rw [if_pos hx, dedupKeys_go_mem xs acc k]
      constructor
      · rintro (h | h)
        · exact .inl h
        · exact .inr (by simp [h])
      · rintro (h | h)
        · exact .inl h
        · rcases List.mem_cons.mp h with h2 | h2
          · subst h2; exact .inl hx
          · exact .inr h2
    · rw [if_neg hx, dedupKeys_go_mem xs (acc ++ [x]) k]
      constructor
      · rintro (h | h)
        · rcases List.mem_append.mp h with h2 | h2
          · exact .inl h2
          · simp at h2; subst h2; exact .inr (by simp)
        · exact .inr (by simp [h])
      · rintro (h | h)
        · exact .inl (by simp [h])
        · rcases List.mem_cons.mp h with h2 | h2
          · subst h2; exact .inl (by simp)
          · exact .inr h2

/-- `dedupKeys` has the same members as its input. -/
theorem dedupKeys_mem (ks : List String) (k : String) :
    k ∈ dedupKeys ks ↔ k ∈ ks := by
  unfold dedupKeys
  rw [dedupKeys_go_mem]
  simp

/-- The key-dedup fold preserves freedom from duplicates. -/
theorem dedupKeys_go_nodup : ∀ (ks acc : List String), acc.Nodup →
    (ks.foldl (fun a x => if x ∈ a then a else a ++ [x]) acc).Nodup
  | [], acc, h => h
  | x :: xs, acc, h => by
    simp only [List.foldl_cons]
    by_cases hx : x ∈ acc
    · rw [if_pos hx]
      exact dedupKeys_go_nodup xs acc h
    · rw [if_neg hx]
      exact dedupKeys_go_nodup xs (acc ++ [x])
        (by simp [List.nodup_append, h, hx])

/-- `dedupKeys` contains no duplicates. -/
theorem dedupKeys_nodup (ks : List String) : (dedupKeys ks).Nodup :=
  dedupKeys_go_nodup ks [] (by simp)

/-- The collect phase on a total key function with no reserved key. -/
theorem groupCollect_total (key : Item → String) : ∀ (q : List Item),
    (∀ i ∈ q, ¬ key i ∈ reservedArrayProps) →
    groupCollect (fun i => .ok (key i)) q = .ok (q.map fun x => (x, key x))
  | [], _ => rfl
  | x :: xs, h => by
    have hx : ¬ key x ∈ reservedArrayProps := h x (by simp)
    have hxs := groupCollect_total key xs (fun i hi => h i (by simp [hi]))
    simp only [groupCollect, except_bind_ok, List.map_cons]
    rw [if_neg hx, hxs]
    rfl

/-- Projecting a filtered pair list back to the items. -/
theorem pairs_filter_map (key : Item → String) (k : String) : ∀ (q : List Item),
    (((q.map fun x => (x, key x)).filter fun p => p.2 == k).map fun p => p.1) =
      q.filter fun x => key x == k
  | [] => rfl
  | x :: xs => by
    simp only [List.map_cons, List.filter_cons]
    by_cases hx : (key x == k) = true
    · simp only [hx, if_true, ite_true, List.map_cons, pairs_filter_map key k xs]
    · simp only [Bool.not_eq_true] at hx
      simp only [hx, Bool.false_eq_true, if_false, ite_false,
        pairs_filter_map key k xs]

/-- Filtering one key out of a concatenation of key-groups. -/
theorem flatMap_groups_filter (key : Item → String) (q : List Item)
    (k : String) : ∀ (ks : List String), ks.Nodup →
    ((ks.flatMap fun k0 => q.filter fun x => key x == k0).filter
        fun x => key x == k) =
      if k ∈ ks then q.filter (fun x => key x == k) else []
  | [], _ => by simp
  | k0 :: rest, hnd => by
    have hnd2 : rest.Nodup := hnd.of_cons
    have hk0 : ¬ k0 ∈ rest := by
      intro hmem
      exact (List.nodup_cons.mp hnd).1 hmem
    simp only [List.flatMap_cons, List.filter_append,
      flatMap_groups_filter key q k rest hnd2]
    by_cases hk : k0 = k
    · subst hk
      have h1 : ((q.filter fun x => key x == k0).filter fun x => key x == k0) =
          q.filter fun x => key x == k0 := by
        rw [List.filter_filter]
        apply List.filter_congr
        intro x _
        simp [Bool.and_self]
      rw [h1, if_neg hk0, if_pos (by simp)]
      simp
    · have h1 : ((q.filter fun x => key x == k0).filter fun x => key x == k) =
          [] := by
        rw [List.filter_filter]
        apply List.filter_eq_nil_iff.mpr
        intro x _
        simp only [Bool.and_eq_true, beq_iff_eq]
        rintro ⟨h2, h3⟩
        exact hk (h2.symm.trans h3).symm
      rw [h1]
      by_cases hmem : k ∈ rest
      · rw [if_pos hmem, if_pos (List.mem_cons_of_mem k0 hmem)]
        simp
      · have hnotin : ¬ k ∈ k0 :: rest := by
          intro hmm
          rcases List.mem_cons.mp hmm with h4 | h4
          · exact hk h4.symm
          · exact hmem h4
        rw [if_neg hmem, if_neg hnotin]
        simp

/-- C5 amended: provided no key is a canonical array-index string and
no key collides with a built-in array property, `group` is exactly
the claimed stable partition: groups concatenated in first-appearance
key order, each group keeping the original relative order (the
second conjunct), empty-string keys forming a group like any other. -/
theorem c5_amended (key : Item → String) (q : List Item)
    (h1 : ∀ i ∈ q, isArrayIndexStr (key i) = false)
    (h2 : ∀ i ∈ q, ¬ key i ∈ reservedArrayProps) :
    groupQ (fun i => .ok (key i)) q = .ok (specGroupFirstAppearance key q) ∧
    (∀ k : String,
      ((specGroupFirstAppearance key q).filter fun x => key x == k) =
        q.filter fun x => key x == k) := by
  have hkeys : ∀ k ∈ dedupKeys (q.map key), isArrayIndexStr k = false := by
    intro k hk
    rcases List.mem_map.mp ((dedupKeys_mem (q.map key) k).mp hk) with ⟨i, hi, hik⟩
    rw [← hik]
    exact h1 i hi
  have horder : forInKeyOrder (dedupKeys (q.map key)) = dedupKeys (q.map key) := by
    unfold forInKeyOrder
    have hfilter1 : (dedupKeys (q.map key)).filter isArrayIndexStr = [] := by
      apply List.filter_eq_nil_iff.mpr
      intro k hk
      simp [hkeys k hk]
    have hfilter2 :
        ((dedupKeys (q.map key)).filter fun k => !isArrayIndexStr k) =
          dedupKeys (q.map key) := by
      apply List.filter_eq_self.mpr
      intro k hk
      simp [hkeys k hk]
    rw [hfilter1, hfilter2]
    rfl
  constructor
  · unfold groupQ
    rw [groupCollect_total key q h2]
    simp only [except_bind_ok]
    have hsnd : ((q.map fun x => (x, key x)).map fun p => p.2) = q.map key := by
      rw [List.map_map]
      rfl
    rw [hsnd, horder]
    unfold specGroupFirstAppearance
    have hfun :
        (fun k => (((q.map fun x => (x, key x)).filter fun p => p.2 == k).map
            fun p => p.1)) =
          fun k => q.filter fun x => key x == k :=
      funext fun k => pairs_filter_map key k q
    rw [hfun]
  · intro k
    unfold specGroupFirstAppearance
    rw [flatMap_groups_filter key q k (dedupKeys (q.map key))
      (dedupKeys_nodup (q.map key))]
    by_cases hk : k ∈ dedupKeys (q.map key)
    · rw [if_pos hk]
    · rw [if_neg hk]
      symm
      apply List.filter_eq_nil_iff.mpr
      intro x hx
      simp only [beq_iff_eq]
      intro hxk
      exact hk ((dedupKeys_mem (q.map key) k).mpr
        (List.mem_map.mpr ⟨x, hx, hxk⟩))

end Spotify

namespace Spotify

/-- The claim-side total entry key (lower-cased entry text). -/
def c5EntryKey : Item → String
  | .track t => jsToLower t.entry
  | .album a => jsToLower a.entry
  | .artist a => jsToLower a.entry
  | _ => ""

/-- C5 counterexample: with keys `"1"` then `"0"` the code enumerates
the groups in ascending numeric order (JavaScript `for..in` puts
array-index keys first), not in first-appearance order as claimed. -/
theorem c5_numeric_keys_counterexample :
    groupQ keyEntry
        [.track ⟨"1", .undefined, .jnull, .jnull⟩,
         .track ⟨"0", .undefined, .jnull, .jnull⟩] =
      .ok [.track ⟨"0", .undefined, .jnull, .jnull⟩,
           .track ⟨"1", .undefined, .jnull, .jnull⟩] ∧
    (keyEntry (.track ⟨"1", .undefined, .jnull, .jnull⟩) =
        .ok (c5EntryKey (.track ⟨"1", .undefined, .jnull, .jnull⟩)) ∧
     keyEntry (.track ⟨"0", .undefined, .jnull, .jnull⟩) =
        .ok (c5EntryKey (.track ⟨"0", .undefined, .jnull, .jnull⟩))) ∧
    specGroupFirstAppearance c5EntryKey
        [.track ⟨"1", .undefined, .jnull, .jnull⟩,
         .track ⟨"0", .undefined, .jnull, .jnull⟩] =
      [.track ⟨"1", .undefined, .jnull, .jnull⟩,
       .track ⟨"0", .undefined, .jnull, .jnull⟩] ∧
    ([.track ⟨"0", .undefined, .jnull, .jnull⟩,
      .track ⟨"1", .undefined, .jnull, .jnull⟩] : List Item) ≠
      [.track ⟨"1", .undefined, .jnull, .jnull⟩,
       .track ⟨"0", .undefined, .jnull, .jnull⟩] :=
  ⟨rfl, ⟨rfl, rfl⟩, rfl, by decide⟩

/-- C5 amended witness: three tracks with plain keys `b`, `a`, `b`. -/
theorem c5_amended_witness :
    ((∀ i ∈ ([.track ⟨"b", .undefined, .jnull, .jnull⟩,
              .track ⟨"a", .undefined, .jnull, .jnull⟩,
              .track ⟨"B", .undefined, .jnull, .jnull⟩] : List Item),
        isArrayIndexStr (c5EntryKey i) = false) ∧
     (∀ i ∈ ([.track ⟨"b", .undefined, .jnull, .jnull⟩,
              .track ⟨"a", .undefined, .jnull, .jnull⟩,
              .track ⟨"B", .undefined, .jnull, .jnull⟩] : List Item),
        ¬ c5EntryKey i ∈ reservedArrayProps)) ∧
    groupQ (fun i => .ok (c5EntryKey i))
        [.track ⟨"b", .undefined, .jnull, .jnull⟩,
         .track ⟨"a", .undefined, .jnull, .jnull⟩,
         .track ⟨"B", .undefined, .jnull, .jnull⟩] =
      .ok (specGroupFirstAppearance c5EntryKey
        [.track ⟨"b", .undefined, .jnull, .jnull⟩,
         .track ⟨"a", .undefined, .jnull, .jnull⟩,
         .track ⟨"B", .undefined, .jnull, .jnull⟩]) ∧
    specGroupFirstAppearance c5EntryKey
        [.track ⟨"b", .undefined, .jnull, .jnull⟩,
         .track ⟨"a", .undefined, .jnull, .jnull⟩,
         .track ⟨"B", .undefined, .jnull, .jnull⟩] =
      [.track ⟨"b", .undefined, .jnull, .jnull⟩,
       .track ⟨"B", .undefined, .jnull, .jnull⟩,
       .track ⟨"a", .undefined, .jnull, .jnull⟩] :=
  ⟨⟨by decide, by decide⟩,
   (c5_amended c5EntryKey _ (by decide) (by decide)).1,
   by decide⟩

end Spotify

namespace Spotify

/-! ## Sort lemmas (claim C6) -/

/-- Inserting permutes to consing. -/
theorem sortInsert_perm {α : Type} (le : α → α → Bool) :
    ∀ (acc : List α) (x : α), (sortInsert le acc x).Perm (x :: acc)
  | [], x => by simp [sortInsert]
  | y :: ys, x => by
    unfold sortInsert
    by_cases hc : le y x = true
    · rw [if_pos hc]
      exact ((sortInsert_perm le ys x).cons y).trans (List.Perm.swap x y ys)
    · rw [if_neg hc]

/-- The insertion fold permutes to appending. -/
theorem jsSort_perm_aux {α : Type} (le : α → α → Bool) :
    ∀ (l acc : List α), (l.foldl (sortInsert le) acc).Perm (acc ++ l)
  | [], acc => by simp
  | x :: xs, acc => by
    simp only [List.foldl_cons]
    refine (jsSort_perm_aux le xs (sortInsert le acc x)).trans ?_
    refine (List.Perm.append_right xs (sortInsert_perm le acc x)).trans ?_
    exact List.perm_middle.symm

/-- The stable sort permutes its input. -/
theorem jsSort_permutes {α : Type} (le : α → α → Bool) (l : List α) :
    (jsSort le l).Perm l := by
  have h := jsSort_perm_aux le l []
  simpa [jsSort] using h

/-- Inserting into a sorted accumulator keeps it sorted, given
totality and the skip property of the comparator relation. -/
theorem sortInsert_sorted {α : Type} (le : α → α → Bool)
    (htotal : ∀ a b, (le a b || le b a) = true)
    (hskip : ∀ x z w, le z x = false → le z w = true → le x w = true) :
    ∀ (acc : List α) (x : α), acc.Pairwise (fun a b => le a b = true) →
    (sortInsert le acc x).Pairwise (fun a b => le a b = true)
  | [], x, _ => by simp [sortInsert]
  | y :: ys, x, h => by
    rw [List.pairwise_cons] at h
    obtain ⟨hy, hys⟩ := h
    unfold sortInsert
    by_cases hc : le y x = true
    · rw [if_pos hc, List.pairwise_cons]
      constructor
      · intro b hb
        rcases List.mem_cons.mp ((sortInsert_perm le ys x).mem_iff.mp hb) with h2 | h2
        · subst h2; exact hc
        · exact hy b h2
      · exact sortInsert_sorted le htotal hskip ys x hys
    · have hcf : le y x = false := by rwa [Bool.not_eq_true] at hc
      rw [if_neg hc, List.pairwise_cons]
      constructor
      · intro b hb
        rcases List.mem_cons.mp hb with h2 | h2
        · subst h2
          have h3 := htotal b x
          rw [hcf] at h3
          simpa using h3
        · exact hskip x y b hcf (hy b h2)
      · exact List.pairwise_cons.mpr ⟨hy, hys⟩

/-- The insertion fold of a sorted accumulator is sorted. -/
theorem jsSort_sorted_aux {α : Type} (le : α → α → Bool)
    (htotal : ∀ a b, (le a b || le b a) = true)
    (hskip : ∀ x z w, le z x = false → le z w = true → le x w = true) :
    ∀ (l acc : List α), acc.Pairwise (fun a b => le a b = true) →
    (l.foldl (sortInsert le) acc).Pairwise (fun a b => le a b = true)
  | [], _, h => h
  | x :: xs, acc, h =>
    jsSort_sorted_aux le htotal hskip xs (sortInsert le acc x)
      (sortInsert_sorted le htotal hskip acc x h)

/-- The stable sort is sorted. -/
theorem jsSort_sorted {α : Type} (le : α → α → Bool)
    (htotal : ∀ a b, (le a b || le b a) = true)
    (hskip : ∀ x z w, le z x = false → le z w = true → le x w = true)
    (l : List α) : (jsSort le l).Pairwise (fun a b => le a b = true) :=
  jsSort_sorted_aux le htotal hskip l [] (by simp)

/-- A number-valued `JVal` carries an integer. -/
theorem isNum_spec {v : JVal} (h : v.isNum = true) : ∃ n : Int, v = .num n := by
  cases v <;> simp [JVal.isNum] at h ⊢

/-- The popularity comparator relation is total. -/
theorem lePop_total (a b : Item) : (lePop a b || lePop b a) = true := by
  unfold lePop
  cases itemPop a <;> cases itemPop b <;> simp [jsLtB] <;> omega

/-- The popularity comparator relation skips: an element strictly
below `x` that precedes `w` puts `x` before `w` too. -/
theorem lePop_skip (x z w : Item) (h1 : lePop z x = false)
    (h2 : lePop z w = true) : lePop x w = true := by
  have h1b : jsLtB (itemPop z) (itemPop x) = true := by
    cases hj : jsLtB (itemPop z) (itemPop x)
    · rw [show lePop z x = !jsLtB (itemPop z) (itemPop x) from rfl, hj] at h1
      simp at h1
    · rfl
  have h2b : jsLtB (itemPop z) (itemPop w) = false := by
    cases hj : jsLtB (itemPop z) (itemPop w)
    · rfl
    · rw [show lePop z w = !jsLtB (itemPop z) (itemPop w) from rfl, hj] at h2
      simp at h2
  rw [show lePop x w = !jsLtB (itemPop x) (itemPop w) from rfl]
  revert h1b h2b
  cases itemPop z <;> cases itemPop x <;> cases itemPop w <;>
    simp [jsLtB] <;> omega

/-- Inserting a number-keyed element into a sorted, number-keyed
accumulator appends it to its popularity class. -/
theorem pop_filter_insert (v : Int) :
    ∀ (acc : List Item) (x : Item),
    acc.Pairwise (fun a b => lePop a b = true) →
    (∀ y ∈ acc, (itemPop y).isNum = true) → (itemPop x).isNum = true →
    ((sortInsert lePop acc x).filter fun i => itemPop i == JVal.num v) =
      (if itemPop x == JVal.num v
       then (acc.filter fun i => itemPop i == JVal.num v) ++ [x]
       else acc.filter fun i => itemPop i == JVal.num v)
  | [], x, _, _, _ => by
    by_cases hpx : (itemPop x == JVal.num v) = true <;>
      simp [sortInsert, List.filter_cons, hpx]
  | y :: ys, x, hsorted, hnum, hx => by
    rw [List.pairwise_cons] at hsorted
    obtain ⟨hy, hys⟩ := hsorted
    unfold sortInsert
    by_cases hc : lePop y x = true
    · rw [if_pos hc]
      have ih := pop_filter_insert v ys x hys
        (fun z hz => hnum z (by simp [hz])) hx
      simp only [List.filter_cons, ih]
      by_cases hpy : (itemPop y == JVal.num v) = true <;>
        by_cases hpx : (itemPop x == JVal.num v) = true <;>
        simp [hpy, hpx]
    · have hcf : lePop y x = false := by rwa [Bool.not_eq_true] at hc
      rw [if_neg hc]
      have hlt : jsLtB (itemPop y) (itemPop x) = true := by
        cases hj : jsLtB (itemPop y) (itemPop x)
        · rw [show lePop y x = !jsLtB (itemPop y) (itemPop x) from rfl, hj] at hcf
          simp at hcf
        · rfl
      by_cases hpx : (itemPop x == JVal.num v) = true
      · obtain ⟨ny, hny⟩ := isNum_spec (hnum y (by simp))
        obtain ⟨nx, hnx⟩ := isNum_spec hx
        have hnylt : ny < nx := by
          rw [hny, hnx] at hlt
          simpa [jsLtB] using hlt
        have hxv : nx = v := by
          rw [hnx] at hpx
          simpa using hpx
        have hempty : ((y :: ys).filter fun i => itemPop i == JVal.num v) = [] := by
          apply List.filter_eq_nil_iff.mpr
          intro z hz
          rcases List.mem_cons.mp hz with h2 | h2
          · subst h2
            rw [hny]
            simp only [beq_iff_eq, JVal.num.injEq]
            omega
          · obtain ⟨nz, hnz⟩ := isNum_spec (hnum z (by simp [h2]))
            have hzy : lePop y z = true := hy z h2
            have : ¬ ny < nz := by
              rw [show lePop y z = !jsLtB (itemPop y) (itemPop z) from rfl,
                hny, hnz] at hzy
              simpa [jsLtB] using hzy
            rw [hnz]
            simp only [beq_iff_eq, JVal.num.injEq]
            omega
        simp [List.filter_cons, hpx, hempty]
      · simp [List.filter_cons, hpx]

/-- The insertion fold appends popularity classes in order. -/
theorem pop_filter_sort_aux (v : Int) :
    ∀ (l acc : List Item),
    acc.Pairwise (fun a b => lePop a b = true) →
    (∀ y ∈ acc, (itemPop y).isNum = true) →
    (∀ y ∈ l, (itemPop y).isNum = true) →
    ((l.foldl (sortInsert lePop) acc).filter fun i => itemPop i == JVal.num v) =
      (acc.filter fun i => itemPop i == JVal.num v) ++
        (l.filter fun i => itemPop i == JVal.num v)
  | [], acc, _, _, _ => by simp
  | x :: xs, acc, hs, hna, hnl => by
    simp only [List.foldl_cons]
    have hx := hnl x (by simp)
    have ih := pop_filter_sort_aux v xs (sortInsert lePop acc x)
      (sortInsert_sorted lePop lePop_total lePop_skip acc x hs)
      (fun z hz => by
        rcases List.mem_cons.mp ((sortInsert_perm lePop acc x).mem_iff.mp hz)
          with h2 | h2
        · subst h2; exact hx
        · exact hna z h2)
      (fun z hz => hnl z (by simp [hz]))
    rw [ih, pop_filter_insert v acc x hs hna hx]
    by_cases hpx : (itemPop x == JVal.num v) = true <;>
      simp [hpx, List.filter_cons]

/-- The stable sort preserves each popularity class in order. -/
theorem jsSort_pop_filter (v : Int) (l : List Item)
    (hnl : ∀ y ∈ l, (itemPop y).isNum = true) :
    ((jsSort lePop l).filter fun i => itemPop i == JVal.num v) =
      l.filter fun i => itemPop i == JVal.num v := by
  have h := pop_filter_sort_aux v l [] (by simp) (by simp) hnl
  simpa [jsSort] using h

end Spotify

namespace Spotify

/-- Integer popularity of a slot (0 stand-in outside numbers). -/
def popInt (i : Item) : Int :=
  match itemPop i with
  | .num n => n
  | _ => 0

/-- A slot that is a track with an integer popularity. -/
def itemNumPopTrack : Item → Bool
  | .track t => (Track.popularity t).isNum
  | _ => false

/-- Sorting a queue of at most one slot changes nothing. -/
theorem jsSort_len_le_one {α : Type} (le : α → α → Bool) :
    ∀ l : List α, l.length ≤ 1 → jsSort le l = l
  | [], _ => rfl
  | [x], _ => rfl
  | x :: y :: rest, h => by simp at h

/-- C6: with ordering `popularity` the order step refreshes the
queue (dispatching every track; a simplified-response track takes the
`GET /tracks/<id>` promotion path, last conjunct) and replaces the
refreshed entries by their stable descending popularity sort: the
result is a permutation (second conjunct), sorted by descending
popularity (third), and each popularity class keeps its refreshed
relative order — stability (fourth). -/
theorem c6_order_popularity (env : Env) (lfm : Lfm) (p r : Playlist)
    (hord : p.ordering = JOrdering.popularity)
    (hr : r = Playlist.refreshTracks env p)
    (ht : ∀ i ∈ r.entries, itemNumPopTrack i = true) :
    Playlist.orderStep env lfm p =
      .ok { r with entries := jsSort lePop r.entries } ∧
    (jsSort lePop r.entries).Perm r.entries ∧
    (jsSort lePop r.entries).Pairwise (fun a b => popInt b ≤ popInt a) ∧
    (∀ v : Int,
      ((jsSort lePop r.entries).filter fun i => itemPop i == JVal.num v) =
        r.entries.filter fun i => itemPop i == JVal.num v) ∧
    (∀ t : Track, t.response.truthy = false → t.responseSimple.truthy = true →
      Track.dispatch env t = Track.fetchTrack env t) := by
  subst hr
  have hnum : ∀ i ∈ (Playlist.refreshTracks env p).entries,
      (itemPop i).isNum = true := by
    intro i hi
    have h2 := ht i hi
    cases i with
    | track t => simpa [itemNumPopTrack, itemPop] using h2
    | album a => simp [itemNumPopTrack] at h2
    | artist a => simp [itemNumPopTrack] at h2
    | queue q => simp [itemNumPopTrack] at h2
    | undefI => simp [itemNumPopTrack] at h2
  refine ⟨?_, jsSort_permutes lePop _, ?_, ?_, ?_⟩
  · simp only [Playlist.orderStep, hord]
    by_cases hlen : (Playlist.refreshTracks env p).entries.length ≤ 1
    · unfold orderByPopularityQ
      rw [if_pos hlen, jsSort_len_le_one lePop _ hlen]
      rfl
    · have hall : ((Playlist.refreshTracks env p).entries.all
          fun i => (Item.popularityM i).isOk) = true := by
        apply List.all_eq_true.mpr
        intro i hi
        have h2 := ht i hi
        cases i with
        | track t => rfl
        | album a => simp [itemNumPopTrack] at h2
        | artist a => simp [itemNumPopTrack] at h2
        | queue q => simp [itemNumPopTrack] at h2
        | undefI => simp [itemNumPopTrack] at h2
      unfold orderByPopularityQ
      rw [if_neg hlen, if_pos hall]
      rfl
  · refine (jsSort_sorted lePop lePop_total lePop_skip _).imp_of_mem ?_
    intro a b ha hb hle
    have ha2 := hnum a ((jsSort_permutes lePop _).subset ha)
    have hb2 := hnum b ((jsSort_permutes lePop _).subset hb)
    obtain ⟨na, hna⟩ := isNum_spec ha2
    obtain ⟨nb, hnb⟩ := isNum_spec hb2
    have hnlt : ¬ na < nb := by
      rw [show lePop a b = !jsLtB (itemPop a) (itemPop b) from rfl,
        hna, hnb] at hle
      simpa [jsLtB] using hle
    simp only [popInt, hna, hnb]
    omega
  · intro v
    exact jsSort_pop_filter v _ hnum
  · intro t h1 h2
    unfold Track.dispatch
    rw [h1, h2]
    simp

/-- Full responses with popularities 30 and 70 for the C6 witness. -/
def c6Resp30 : JVal :=
  .obj (jobjOf [("id", .str "aaa"), ("uri", .str "spotify:track:aaa"),
    ("name", .str "S1"), ("popularity", .num 30),
    ("artists", .arr (jarrOf [.obj (jobjOf [("name", .str "B1")])]))])

/-- The higher-popularity response of the C6 witness. -/
def c6Resp70 : JVal :=
  .obj (jobjOf [("id", .str "bbb"), ("uri", .str "spotify:track:bbb"),
    ("name", .str "S2"), ("popularity", .num 70),
    ("artists", .arr (jarrOf [.obj (jobjOf [("name", .str "B2")])]))])

/-- The C6 witness gateway. -/
def c6Env : Env := fun url =>
  if url = "https://api.spotify.com/v1/tracks/aaa" then .ok c6Resp30
  else if url = "https://api.spotify.com/v1/tracks/bbb" then .ok c6Resp70
  else .error "404"

/-- The C6 witness playlist (popularity ordering, two URI tracks). -/
def c6Playlist : Playlist :=
  Playlist.parse "#ORDER BY POPULARITY\nspotify:track:aaa\nspotify:track:bbb"

/-- C6 witness: the lower-popularity track is fetched first yet
sorted after the higher-popularity one. -/
theorem c6_witness :
    (c6Playlist.ordering = JOrdering.popularity ∧
     (∀ i ∈ (Playlist.refreshTracks c6Env c6Playlist).entries,
        itemNumPopTrack i = true)) ∧
    Playlist.orderStep c6Env lfmNone c6Playlist =
      .ok { Playlist.refreshTracks c6Env c6Playlist with
            entries := jsSort lePop
              (Playlist.refreshTracks c6Env c6Playlist).entries } ∧
    jsSort lePop (Playlist.refreshTracks c6Env c6Playlist).entries =
      [.track ⟨"spotify:track:bbb", .undefined, c6Resp70, .jnull⟩,
       .track ⟨"spotify:track:aaa", .undefined, c6Resp30, .jnull⟩] :=
  ⟨⟨rfl, by decide⟩,
   (c6_order_popularity c6Env lfmNone c6Playlist
     (Playlist.refreshTracks c6Env c6Playlist) rfl rfl (by decide)).1,
   by decide⟩

end Spotify

namespace Spotify

/-! ## Renderer lemmas (claim C8) -/

/-- The raw accumulated render text: every uri followed by `\n`. -/
def rawNl : List String → String
  | [] => ""
  | u :: rest => u ++ "\n" ++ rawNl rest

/-- A queue slot the renderer handles without throwing: a track whose
`toString()` and `lastfm()` succeed and whose uri is a string that is
empty or of the claimed shape. -/
def itemRendersOk : Item → Bool
  | .track t =>
    (Track.toStringM t).isOk && (Track.lastfmJ t).isOk &&
    (match Track.uriJ t with
     | .str u => u == "" || uriPattern u
     | _ => false)
  | _ => false

/-- The uri string a slot contributes. -/
def itemUriStr : Item → String
  | .track t => (Track.uriJ t).coerceStr
  | _ => ""

/-- String append is associative. -/
theorem string_append_assoc (a b c : String) :
    (a ++ b) ++ c = a ++ (b ++ c) := by
  cases a
  cases b
  cases c
  exact congrArg String.mk (List.append_assoc _ _ _)

/-- Appending the empty string is the identity. -/
theorem string_append_empty (a : String) : a ++ "" = a := by
  cases a
  exact congrArg String.mk (List.append_nil _)

/-- The empty string is a left identity of append. -/
theorem string_empty_append (a : String) : "" ++ a = a := by
  cases a
  rfl

/-- A successful `Except` carries a value. -/
theorem isOk_exists {α : Type} {e : Except String α} (h : e.isOk = true) :
    ∃ v, e = .ok v := by
  cases e with
  | ok v => exact ⟨v, rfl⟩
  | error msg => simp [Except.isOk, Except.toBool] at h

/-- Unpacking `itemRendersOk`. -/
theorem itemRendersOk_spec {i : Item} (h : itemRendersOk i = true) :
    ∃ t u, i = .track t ∧
      (∃ v, Track.toStringM t = .ok v) ∧
      (∃ w, Track.lastfmJ t = .ok w) ∧
      Track.uriJ t = .str u ∧ (u = "" ∨ uriPattern u = true) := by
  cases i with
  | track t =>
    unfold itemRendersOk at h
    rw [Bool.and_eq_true, Bool.and_eq_true] at h
    obtain ⟨⟨h1, h2⟩, h3⟩ := h
    cases huri : Track.uriJ t with
    | str u =>
      refine ⟨t, u, rfl, isOk_exists h1, isOk_exists h2, huri, ?_⟩
      rw [huri] at h3
      rw [Bool.or_eq_true] at h3
      rcases h3 with h4 | h4
      · exact .inl (by simpa using h4)
      · exact .inr h4
    | undefined => rw [huri] at h3; simp at h3
    | jnull => rw [huri] at h3; simp at h3
    | nan => rw [huri] at h3; simp at h3
    | bool b => rw [huri] at h3; simp at h3
    | num n => rw [huri] at h3; simp at h3
    | arr xs => rw [huri] at h3; simp at h3
    | obj fs => rw [huri] at h3; simp at h3
  | album a => simp [itemRendersOk] at h
  | artist a => simp [itemRendersOk] at h
  | queue q => simp [itemRendersOk] at h
  | undefI => simp [itemRendersOk] at h

/-- The render fold accumulates the non-empty uris, each with a
trailing newline. -/
theorem toStrGo_spec : ∀ (items : List Item) (acc : String),
    (∀ i ∈ items, itemRendersOk i = true) →
    toStrGo items acc =
      .ok (acc ++ rawNl ((items.map itemUriStr).filter fun u => u != ""))
  | [], acc, _ => by
    simp only [toStrGo, List.map_nil, List.filter_nil, rawNl]
    rw [string_append_empty]
  | i :: rest, acc, h => by
    obtain ⟨t, u, hi, ⟨v, hv⟩, ⟨w, hw⟩, huri, hshape⟩ :=
      itemRendersOk_spec (h i (by simp))
    subst hi
    have hrest : ∀ j ∈ rest, itemRendersOk j = true :=
      fun j hj => h j (by simp [hj])
    simp only [toStrGo, Item.toStringMethod, Item.lastfmMethod, Item.uriMethod,
      hv, hw, huri, except_bind_ok, List.map_cons, List.filter_cons]
    by_cases hu : u = ""
    · subst hu
      simp only [JVal.isEmptyStr, itemUriStr, huri, JVal.coerceStr]
      rw [toStrGo_spec rest acc hrest]
      rfl
    · have hne : ((JVal.str u).isEmptyStr) = false := by
        simp [JVal.isEmptyStr, hu]
      have hbne : (u != "") = true := by
        simp [bne, hu]
      simp only [hne, Bool.not_false, if_true, ite_true, itemUriStr, huri,
        JVal.coerceStr, hbne]
      rw [toStrGo_spec rest (acc ++ u ++ "\n") hrest]
      simp only [rawNl]
      rw [string_append_assoc, string_append_assoc, string_append_assoc]

end Spotify

namespace Spotify

/-- A rendered line: non-empty and free of whitespace characters. -/
def goodLine (u : String) : Prop :=
  u.data ≠ [] ∧ ∀ c ∈ u.data, jsWS c = false

/-- Alphanumeric characters are not rendering whitespace. -/
theorem alnum_not_ws (c : Char) (h : c.isAlphanum = true) : jsWS c = false := by
  cases hw : jsWS c
  · rfl
  · exfalso
    unfold jsWS at hw
    rw [Bool.or_eq_true, Bool.or_eq_true, Bool.or_eq_true] at hw
    rcases hw with ((h1 | h1) | h1) | h1 <;>
      rw [show c = _ from eq_of_beq h1] at h <;> simp at h

/-- A uri of the claimed shape is a good line. -/
theorem uriPattern_good (u : String) (h : uriPattern u = true) : goodLine u := by
  unfold uriPattern uriPatternL at h
  rw [Bool.and_eq_true, Bool.and_eq_true, Bool.and_eq_true, Bool.and_eq_true] at h
  obtain ⟨⟨⟨hne, hsch⟩, hpre⟩, hid, hidall⟩ := h
  have hsplit : u.data.takeWhile (fun c => c != ':') ++
      u.data.dropWhile (fun c => c != ':') = u.data :=
    List.takeWhile_append_dropWhile (fun c => c != ':') u.data
  have hprefix : (":track:".data).IsPrefix (u.data.dropWhile fun c => c != ':') := by
    exact List.isPrefixOf_iff_prefix.mp hpre
  obtain ⟨idpart, hidp⟩ := hprefix
  constructor
  · intro hempty
    rw [hempty] at hne
    simp at hne
  · intro c hc
    rw [← hsplit] at hc
    rcases List.mem_append.mp hc with h2 | h2
    · exact alnum_not_ws c (List.all_eq_true.mp hsch c h2)
    · rw [← hidp] at h2
      rcases List.mem_append.mp h2 with h3 | h3
      · have h3b : c ∈ ([':', 't', 'r', 'a', 'c', 'k', ':'] : List Char) := h3
        simp only [List.mem_cons, List.not_mem_nil, or_false] at h3b
        rcases h3b with h4 | h4 | h4 | h4 | h4 | h4 | h4 <;>
          subst h4 <;> rfl
      · have hdrop : ((u.data.dropWhile fun c => c != ':').drop 7) = idpart := by
          rw [← hidp]
          exact List.drop_left (":track:".data) idpart
        have : c ∈ (u.data.dropWhile fun c => c != ':').drop 7 := by
          rw [hdrop]; exact h3
        exact alnum_not_ws c (List.all_eq_true.mp hidall c this)

/-- The raw text is the joined text plus one trailing newline. -/
theorem rawNl_data : ∀ us : List String, us ≠ [] →
    (rawNl us).data = (joinNl us).data ++ ['\n']
  | [], h => absurd rfl h
  | [u], _ => by
    show (u ++ "\n" ++ rawNl []).data = u.data ++ ['\n']
    rw [rawNl, string_append_empty, string_data_append]
  | u :: v :: rest, _ => by
    show (u ++ "\n" ++ rawNl (v :: rest)).data = (joinNl (u :: v :: rest)).data ++ ['\n']
    rw [string_append_assoc, string_data_append,
      string_data_append, rawNl_data (v :: rest) (by simp),
      show (joinNl (u :: v :: rest)) = u ++ "\n" ++ joinNl (v :: rest) from rfl,
      string_append_assoc, string_data_append, string_data_append]
    simp [List.append_assoc]

/-- The joined text starts with a non-whitespace character. -/
theorem joinNl_head : ∀ us : List String, (∀ u ∈ us, goodLine u) → us ≠ [] →
    ∃ c t, (joinNl us).data = c :: t ∧ jsWS c = false
  | [], _, h => absurd rfl h
  | [u], hg, _ => by
    obtain ⟨hne, hws⟩ := hg u (by simp)
    cases hd : u.data with
    | nil => exact absurd hd hne
    | cons c t =>
      exact ⟨c, t, hd, hws c (by rw [hd]; simp)⟩
  | u :: v :: rest, hg, _ => by
    obtain ⟨hne, hws⟩ := hg u (by simp)
    cases hd : u.data with
    | nil => exact absurd hd hne
    | cons c t =>
      refine ⟨c, t ++ ('\n' :: (joinNl (v :: rest)).data), ?_,
        hws c (by rw [hd]; simp)⟩
      show (u ++ "\n" ++ joinNl (v :: rest)).data = _
      rw [string_append_assoc, string_data_append, string_data_append, hd]
      rfl

/-- The joined text ends with a non-whitespace character. -/
theorem joinNl_revhead : ∀ us : List String, (∀ u ∈ us, goodLine u) → us ≠ [] →
    ∃ c t, (joinNl us).data.reverse = c :: t ∧ jsWS c = false
  | [], _, h => absurd rfl h
  | [u], hg, _ => by
    obtain ⟨hne, hws⟩ := hg u (by simp)
    cases hd : u.data.reverse with
    | nil => exact absurd (by simpa using hd) hne
    | cons c t =>
      refine ⟨c, t, hd, hws c ?_⟩
      have : c ∈ u.data.reverse := by rw [hd]; simp
      simpa using this
  | u :: v :: rest, hg, _ => by
    obtain ⟨c, t, hrev, hc⟩ := joinNl_revhead (v :: rest)
      (fun w hw => hg w (by simp [hw])) (by simp)
    refine ⟨c, t ++ ('\n' :: u.data.reverse), ?_, hc⟩
    show (u ++ "\n" ++ joinNl (v :: rest)).data.reverse = _
    rw [string_append_assoc, string_data_append, string_data_append]
    rw [List.reverse_append, List.reverse_append, hrev]
    simp

/-- Trimming the raw render text yields the newline join with no
trailing newline. -/
theorem jsTrim_rawNl (us : List String) (hg : ∀ u ∈ us, goodLine u) :
    jsTrim (rawNl us) = joinNl us := by
  cases us with
  | nil => rfl
  | cons u0 rest =>
    have hne : (u0 :: rest) ≠ ([] : List String) := by simp
    obtain ⟨c, t, hJ, hc⟩ := joinNl_head (u0 :: rest) hg hne
    obtain ⟨c2, t2, hJr, hc2⟩ := joinNl_revhead (u0 :: rest) hg hne
    unfold jsTrim
    rw [rawNl_data (u0 :: rest) hne, hJ]
    rw [List.cons_append, List.dropWhile_cons, if_neg (by simp [hc])]
    have hrev : (c :: (t ++ ['\n'])).reverse = '\n' :: (c :: t).reverse := by
      rw [← List.cons_append, List.reverse_append]
      rfl
    rw [hrev, List.dropWhile_cons, if_pos (by simp [jsWS])]
    rw [← hJ, hJr, List.dropWhile_cons, if_neg (by simp [hc2])]
    rw [← hJr, List.reverse_reverse]

end Spotify

namespace Spotify

/-- C8: on a queue of tracks whose uris are empty or of the claimed
shape (which is what the remote supplies per the interface contract),
the renderer emits exactly the non-empty uris, in order, joined by
newline with the trailing newline stripped; no emitted line is empty
and each matches `<scheme>:track:[A-Za-z0-9]+`. -/
theorem c8_render (p : Playlist)
    (h : ∀ i ∈ p.entries, itemRendersOk i = true) :
    Playlist.toStr p =
      .ok (joinNl ((p.entries.map itemUriStr).filter fun u => u != "")) ∧
    (∀ u ∈ (p.entries.map itemUriStr).filter fun u => u != "",
      u ≠ "" ∧ uriPattern u = true) := by
  have hus : ∀ u ∈ (p.entries.map itemUriStr).filter fun u => u != "",
      u ≠ "" ∧ uriPattern u = true := by
    intro u hu
    obtain ⟨hmap, hne⟩ := List.mem_filter.mp hu
    have hune : u ≠ "" := by simpa [bne] using hne
    obtain ⟨i, hi, hiu⟩ := List.mem_map.mp hmap
    obtain ⟨t, u0, hit, _, _, huri, hshape⟩ := itemRendersOk_spec (h i hi)
    subst hit
    have hcoe : itemUriStr (.track t) = u0 := by
      simp [itemUriStr, huri, JVal.coerceStr]
    rw [hcoe] at hiu
    subst hiu
    rcases hshape with h2 | h2
    · exact absurd h2 hune
    · exact ⟨hune, h2⟩
  refine ⟨?_, hus⟩
  unfold Playlist.toStr
  rw [toStrGo_spec p.entries "" h]
  simp only [except_bind_ok]
  rw [string_empty_append,
    jsTrim_rawNl _ (fun u hu => uriPattern_good u (hus u hu).2)]

/-- The full response of the resolved C8 witness track. -/
def c8Resp : JVal :=
  .obj (jobjOf [("id", .str "abc123"), ("uri", .str "spotify:track:abc123"),
    ("name", .str "S"), ("popularity", .num 5)])

/-- The C8 witness playlist: one unresolved track (empty uri) and one
resolved track. -/
def c8Playlist : Playlist :=
  ⟨.jnull, .jtrue, true,
   [.track ⟨"q", .undefined, .jnull, .jnull⟩,
    .track ⟨"x", .jnull, c8Resp, .jnull⟩]⟩

/-- C8 witness: the empty uri is skipped and the single remaining
line is the track uri. -/
theorem c8_witness :
    (∀ i ∈ c8Playlist.entries, itemRendersOk i = true) ∧
    Playlist.toStr c8Playlist =
      .ok (joinNl ((c8Playlist.entries.map itemUriStr).filter fun u => u != "")) ∧
    Playlist.toStr c8Playlist = .ok "spotify:track:abc123" :=
  ⟨by decide, (c8_render c8Playlist (by decide)).1, rfl⟩

end Spotify
